import Mathlib

/-!
# Verification of the fox-lang tree-walking interpreter

A shallow embedding of the fox-lang interpreter (scanner, parser,
environments, classes and the tree-walking evaluator) together with proofs
about the properties claimed by its specification.

Conventions of the embedding:
* Rust `usize` indices become `Nat`; `Vec<T>` / slices become `List T`;
  `HashMap<K, V>` becomes an association list `List (K × V)` whose insert
  overwrites the previous binding of the key;
* `Rc<RefCell<T>>` handles (shared mutable cells) become addresses (`Nat`)
  into an explicit heap carried by the interpreter state, while `Rc<T>` of
  immutable data is inlined as a value (the code never compares such
  handles by pointer);
* fallible Rust functions returning `Result<T, FoxError>` become
  `Except FoxError T`;
* the runtime numeric type (Rust `f32`) is modelled as `ℚ`; no verified
  claim depends on floating-point rounding;
* unbounded recursion in the evaluator and the recursive-descent parser is
  modelled with an explicit fuel parameter; running out of fuel yields a
  `Bug`-kind error that no real execution path produces.
-/

namespace Fox

/-- Source location, from `utils.rs` / `token.rs` (`CodeLocation`). -/
structure CodeLocation where
  line : Nat
  abs_position : Nat
deriving Repr, DecidableEq

/-- `CodeLocation::default()`: line 1, absolute position 0. -/
def CodeLocation.default : CodeLocation := ⟨1, 0⟩

/-- Token kinds, from `token.rs` (`TokenType`). -/
inductive TokenType where
  | LeftParenthesis
  | RightParenthesis
  | LeftBrace
  | RightBrace
  | Comma
  | Dot
  | Minus
  | Plus
  | Semicolon
  | Slash
  | Star
  | Bang
  | BangEqual
  | Equal
  | EqualEqual
  | Greater
  | GreaterEqual
  | Less
  | LessEqual
  | Identifier
  | String
  | Number
  | And
  | Class
  | Else
  | False
  | Fun
  | For
  | If
  | Nil
  | Or
  | Print
  | Return
  | Super
  | This
  | True
  | Var
  | While
  | Eof
deriving Repr, DecidableEq

/-- Builtin host function, from `func.rs` (`BuiltinFunc`).  The body is an
opaque host closure (`Rc<dyn Fn>`); it is modelled by an identifier, and
pointer equality of bodies becomes equality of identifiers. -/
structure BuiltinFunc where
  bodyId : Nat
  arity : Nat
deriving Repr, DecidableEq

mutual

/-- A scanned token, from `token.rs` (`Token`). -/
inductive Token where
  | mk (token_type : TokenType) (lexeme : String) (literal : Object)
      (code_location : CodeLocation)

/-- Expressions, from `ast.rs` (`Expression`); each variant's payload struct
(`AssignExpr`, `BinaryExpr`, …) is flattened into constructor fields.
The `set`, `thisEx` and `superEx` variants are used by `interpreter.rs` and
`resolver.rs` but are missing from the `ast.rs` under `src/`; they are
modelled from the spec (§3: `Set(object, name-token, value-expr)`,
`This(keyword-token)`, `Super(keyword-token, method-name-token)`). -/
inductive Expression where
  | assign (name : Token) (value : Expression)
  | binary (left : Expression) (operator : Token) (right : Expression)
  | call (callee : Expression) (paren : Token) (arguments : List Expression)
  | get (object : Expression) (name : Token)
  | grouping (expression : Expression)
  | literal (value : Object)
  | logical (left : Expression) (operator : Token) (right : Expression)
  | unary (expression : Expression) (operator : Token)
  | variable (name : Token)
  | set (object : Expression) (name : Token) (value : Expression)
  | thisEx (keyword : Token)
  | superEx (keyword : Token) (method : Token)

/-- The payload of a `Function` statement, from `ast.rs` (`FunctionStmt`);
kept as a named structure because `Func` in `func.rs` stores a shared
reference to it. -/
inductive FunctionStmt where
  | mk (name : Token) (params : List Token) (body : List Statement)

/-- Statements, from `ast.rs` (`Statement`), payload structs flattened.
The `superclass` field of `classStmt` is used by `interpreter.rs` and
`resolver.rs` but missing from the `ast.rs` under `src/`; it is modelled
from the spec (§3: `Class(name, optional-superclass-variable-expr,
methods)`). -/
inductive Statement where
  | block (statements : List Statement)
  | classStmt (name : Token) (superclass : Option Expression)
      (methods : List Statement)
  | expression (expression : Expression)
  | function (f : FunctionStmt)
  | ifStmt (condition : Expression) (then_branch : Statement)
      (else_branch : Option Statement)
  | print (expression : Expression)
  | ret (keyword : Token) (value : Option Expression)
  | var (name : Token) (initializer : Option Expression)
  | whileStmt (condition : Expression) (body : Statement)

/-- Runtime values, from `object.rs` (`Object`).  `Instance` holds an
address into the instance heap (`Rc<RefCell<ClassInstance>>`); `Class`
holds its immutable `Rc<MetaClass>` inline as a value.  The scanner's
`Object::Empty` placeholder variant appears in no `Object` definition under
`src/`; per the spec (§3: "otherwise a nil placeholder") it is modelled by
`nil`. -/
inductive Object where
  | nil
  | double (value : ℚ)
  | text (value : String)
  | bool (value : Bool)
  | builtinCallee (f : BuiltinFunc)
  | callee (f : Func)
  | cls (meta : MetaClass)
  | inst (addr : Nat)

/-- A user-defined callable, from `func.rs` (`Func`): declaration node,
captured closure environment handle, is-initializer flag. -/
inductive Func where
  | mk (decl : FunctionStmt) (closure : Nat) (isInitializer : Bool)

/-- Modelled from the spec: the metaclass with an optional superclass
(spec §3 "Metaclass. Name; optional shared reference to a superclass;
mapping from method name to a user-callable").  The `class.rs` under `src/`
is an older snapshot whose `MetaClass` has no superclass field, but
`interpreter.rs` constructs `MetaClass::new(name, superclass, methods)`
with a superclass argument, so the superclass-aware `MetaClass` is
repository code missing from `src/`. -/
inductive MetaClass where
  | mk (name : String) (superclass : Option MetaClass)
      (methods : List (String × Func))

end

/-- Error kinds, from `error.rs` (`ErrorKind`). -/
inductive ErrorKind where
  | UnexpectedCharacter
  | UnterminatedString
  | ExpressionExpected
  | ExpectedOperator
  | TooManyFunctionArguments
  | UndefinedVariable (name : String)
  | InvalidAssignmentTarget
  | OperandMustBeNumber
  | Runtime (message : String)
  | Parse (message : String)
  | Resolver (message : String)
  | Bug (message : String)
  | Return (value : Object)

/-- Error payload, from `error.rs` (`ErrorInfo`). -/
inductive ErrorInfo where
  | Empty
  | Code (location : CodeLocation)
  | Token (token : Token)

/-- A structured error, from `error.rs` (`FoxError`). -/
inductive FoxError where
  | mk (kind : ErrorKind) (info : ErrorInfo)

deriving instance BEq for Token, Expression, FunctionStmt, Statement, Object,
  Func, MetaClass

/-- `FoxResult<T>` from `error.rs`. -/
abbrev FoxResult (α : Type) := Except FoxError α

def Token.token_type : Token → TokenType
  | .mk t _ _ _ => t

def Token.lexeme : Token → String
  | .mk _ l _ _ => l

def Token.literal : Token → Object
  | .mk _ _ v _ => v

def Token.code_location : Token → CodeLocation
  | .mk _ _ _ c => c

/-- `Token::is_eof` from `token.rs`. -/
def Token.is_eof (t : Token) : Bool := t.token_type == TokenType.Eof

def FoxError.kind : FoxError → ErrorKind
  | .mk k _ => k

def FoxError.info : FoxError → ErrorInfo
  | .mk _ i => i

/-- `FoxError::code` (scanner errors carrying a raw source position). -/
def FoxError.code (kind : ErrorKind) (location : CodeLocation) : FoxError :=
  .mk kind (.Code location)

/-- `FoxError::token` from `error.rs`. -/
def FoxError.token (kind : ErrorKind) (token : Option Token) : FoxError :=
  match token with
  | none => .mk kind .Empty
  | some t => .mk kind (.Token t)

/-- `FoxError::runtime` from `error.rs`. -/
def FoxError.runtime (token : Option Token) (message : String) : FoxError :=
  FoxError.token (.Runtime message) token

/-- `FoxError::resolver` from `error.rs`. -/
def FoxError.resolver (token : Option Token) (message : String) : FoxError :=
  FoxError.token (.Resolver message) token

/-- `FoxError::bug` from `error.rs`. -/
def FoxError.bug (message : String) : FoxError :=
  FoxError.token (.Bug message) none

/-- `FoxError::error` from `error.rs`. -/
def FoxError.error (kind : ErrorKind) : FoxError := .mk kind .Empty

def KEYWORD_THIS : String := "this"

def KEYWORD_SUPER : String := "super"

def INITIALIZER_NAME : String := "init"

/-! ## Scanner (`scanner.rs`) -/

/-- `is_matches_criteria` from `scanner.rs`. -/
def is_matches_criteria (value : Option Char) (criteria : Char → Bool) : Bool :=
  (value.map criteria).getD false

/-- `is_digit` from `scanner.rs` (`char::is_ascii_digit`). -/
def is_digit (value : Option Char) : Bool :=
  is_matches_criteria value Char.isDigit

/-- `is_alphanumeric` from `scanner.rs`: underscore or
`char::is_ascii_alphanumeric`. -/
def is_alphanumeric (value : Option Char) : Bool :=
  some '_' == value || is_matches_criteria value Char.isAlphanum

/-- Scanner state, from `scanner.rs` (`Scanner`): start of the current
lexeme, current position, 1-based line, source characters. -/
structure Scanner where
  start : Nat
  current : Nat
  line : Nat
  source : List Char

/-- `ScanData` from `scanner.rs`. -/
inductive ScanData where
  | skip
  | token (t : Token)

namespace Scanner

/-- `Scanner::with_source`. -/
def with_source (source : List Char) : Scanner := ⟨0, 0, 1, source⟩

/-- `Scanner::peek`. -/
def peek (s : Scanner) : Option Char := s.source.get? s.current

/-- `Scanner::peek_next`. -/
def peek_next (s : Scanner) : Option Char := s.source.get? (s.current + 1)

/-- `Scanner::advance`: returns the peeked character and unconditionally
bumps `current`. -/
def advance (s : Scanner) : Option Char × Scanner :=
  (s.peek, { s with current := s.current + 1 })

/-- `Scanner::matches` (named `matchesCh` because `matches` is reserved in
Lean). -/
def matchesCh (s : Scanner) (value : Char) : Bool × Scanner :=
  if some value = s.peek then (true, { s with current := s.current + 1 })
  else (false, s)

/-- `Scanner::code_location`. -/
def code_location (s : Scanner) : CodeLocation := ⟨s.line, s.current⟩

/-- `Scanner::error`. -/
def error (s : Scanner) (kind : ErrorKind) : FoxError :=
  FoxError.code kind s.code_location

/-- `Scanner::substring`: the characters of `source[a..b]` as a string. -/
def substring (s : Scanner) (a b : Nat) : String :=
  String.mk ((s.source.drop a).take (b - a))

/-- `Scanner::token_with_literal`, including the source's inverted lexeme
guard: the lexeme is recorded as the empty string whenever
`start < current`. -/
def token_with_literal (s : Scanner) (token_type : TokenType)
    (literal : Object) : Token :=
  let lexeme := if s.start < s.current then "" else s.substring s.start s.current
  .mk token_type lexeme literal s.code_location

/-- `Scanner::scan_data_by_type_literal`. -/
def scan_data_by_type_literal (s : Scanner) (token_type : TokenType)
    (literal : Object) : ScanData :=
  .token (s.token_with_literal token_type literal)

/-- `Scanner::scan_data_by_type`. -/
def scan_data_by_type (s : Scanner) (token_type : TokenType) : ScanData :=
  s.scan_data_by_type_literal token_type Object.nil

theorem peek_some_lt {s : Scanner} {c : Char} (h : s.peek = some c) :
    s.current < s.source.length := by
  by_contra hn
  rw [peek, List.get?_eq_none.mpr (by omega)] at h
  exact Option.noConfusion h

/-- `Scanner::advance_to_eol`. -/
def advance_to_eol (s : Scanner) : Scanner :=
  match h : s.peek with
  | none => s
  | some ch =>
    if ch = '\n' then s
    else advance_to_eol { s with current := s.current + 1 }
termination_by s.source.length - s.current
decreasing_by
  have := peek_some_lt h
  omega

/-- `Scanner::scan_string`. -/
def scan_string (s : Scanner) : FoxResult (ScanData × Scanner) :=
  match h : s.peek with
  | none =>
    .error ((s.advance.2).error .UnterminatedString)
  | some ch =>
    let s1 := (s.advance).2
    let s2 := if ch = '\n' then { s1 with line := s1.line + 1 } else s1
    if ch = '"' then
      let value := s2.substring (s2.start + 1) (s2.current - 1)
      .ok (s2.scan_data_by_type_literal .String (.text value), s2)
    else scan_string s2
termination_by s.source.length - s.current
decreasing_by
  have := peek_some_lt h
  simp only [advance]
  split <;> simp <;> omega

/-- The maximal run of digits starting at `current` is consumed
(the `while is_digit(peek)` loops of `Scanner::scan_number`). -/
def skip_digits (s : Scanner) : Scanner :=
  if h : is_digit s.peek then skip_digits { s with current := s.current + 1 }
  else s
termination_by s.source.length - s.current
decreasing_by
  have hc : ∃ c, s.peek = some c := by
    cases hp : s.peek with
    | none => rw [is_digit, is_matches_criteria, hp] at h; simp at h
    | some c => exact ⟨c, rfl⟩
  obtain ⟨c, hc⟩ := hc
  have := peek_some_lt hc
  omega

/-- Modelled from the spec: the numeric literal value.  The source calls
`str::parse::<f32>` on the scanned lexeme; the claims verified here do not
depend on floating-point rounding, so the value is read as an exact
rational (integer part, optional fraction part). -/
def parse_double (v : String) : Option ℚ :=
  let digitsVal : List Char → Option Nat := fun cs =>
    cs.foldl
      (fun acc c =>
        match acc with
        | none => none
        | some n => if c.isDigit then some (n * 10 + (c.toNat - 48)) else none)
      (some 0)
  match v.toList.splitOn '.' with
  | [w] => (digitsVal w).map (fun n => (n : ℚ))
  | [w, f] =>
    match digitsVal w, digitsVal f with
    | some a, some b => some ((a : ℚ) + (b : ℚ) / ((10 : ℚ) ^ f.length))
    | _, _ => none
  | _ => none

/-- `Scanner::scan_number`. -/
def scan_number (s : Scanner) : FoxResult (ScanData × Scanner) :=
  let s1 := s.skip_digits
  let s2 :=
    if s1.peek = some '.' && is_digit s1.peek_next then
      { s1 with current := s1.current + 1 }
    else s1
  let s3 := s2.skip_digits
  let value := s3.substring s3.start s3.current
  match parse_double value with
  | none => .error (s3.error .UnexpectedCharacter)
  | some d => .ok (s3.scan_data_by_type_literal .Number (.double d), s3)

/-- The `while is_alphanumeric(peek)` loop of `Scanner::scan_identifier`. -/
def skip_alphanumeric (s : Scanner) : Scanner :=
  if h : is_alphanumeric s.peek then
    skip_alphanumeric { s with current := s.current + 1 }
  else s
termination_by s.source.length - s.current
decreasing_by
  have hc : ∃ c, s.peek = some c := by
    cases hp : s.peek with
    | none => rw [is_alphanumeric, is_matches_criteria, hp] at h; simp at h
    | some c => exact ⟨c, rfl⟩
  obtain ⟨c, hc⟩ := hc
  have := peek_some_lt hc
  omega

/-- The keyword table of `Scanner::scan_identifier`. -/
def keyword_type (value : String) : TokenType :=
  match value with
  | "and" => .And
  | "class" => .Class
  | "else" => .Else
  | "false" => .False
  | "for" => .For
  | "fun" => .Fun
  | "if" => .If
  | "nil" => .Nil
  | "or" => .Or
  | "print" => .Print
  | "return" => .Return
  | "super" => .Super
  | "this" => .This
  | "true" => .True
  | "var" => .Var
  | "while" => .While
  | _ => .Identifier

/-- `Scanner::scan_identifier`. -/
def scan_identifier (s : Scanner) : FoxResult (ScanData × Scanner) :=
  let s1 := s.skip_alphanumeric
  let value := s1.substring s1.start s1.current
  .ok (s1.scan_data_by_type (keyword_type value), s1)

/-- The per-character dispatch of `Scanner::scan_next` (the body of its
Rust `match ch`, whose literal arms and guard arms are embedded as a
sequential test chain, which is its exact semantics).  `s0` is the state
after the initial `advance`. -/
def scan_next_dispatch (s0 : Scanner) (ch : Char) : FoxResult (ScanData × Scanner) :=
  if ch = '(' then .ok (s0.scan_data_by_type .LeftParenthesis, s0)
  else if ch = ')' then .ok (s0.scan_data_by_type .RightParenthesis, s0)
  else if ch = '{' then .ok (s0.scan_data_by_type .LeftBrace, s0)
  else if ch = '}' then .ok (s0.scan_data_by_type .RightBrace, s0)
  else if ch = ',' then .ok (s0.scan_data_by_type .Comma, s0)
  else if ch = '.' then .ok (s0.scan_data_by_type .Dot, s0)
  else if ch = '-' then .ok (s0.scan_data_by_type .Minus, s0)
  else if ch = '+' then .ok (s0.scan_data_by_type .Plus, s0)
  else if ch = ';' then .ok (s0.scan_data_by_type .Semicolon, s0)
  else if ch = '*' then .ok (s0.scan_data_by_type .Star, s0)
  else if ch = '!' then
    .ok ((s0.matchesCh '=').2.scan_data_by_type
          (if (s0.matchesCh '=').1 then .BangEqual else .Bang),
        (s0.matchesCh '=').2)
  else if ch = '=' then
    .ok ((s0.matchesCh '=').2.scan_data_by_type
          (if (s0.matchesCh '=').1 then .EqualEqual else .Equal),
        (s0.matchesCh '=').2)
  else if ch = '<' then
    .ok ((s0.matchesCh '=').2.scan_data_by_type
          (if (s0.matchesCh '=').1 then .LessEqual else .Less),
        (s0.matchesCh '=').2)
  else if ch = '>' then
    .ok ((s0.matchesCh '=').2.scan_data_by_type
          (if (s0.matchesCh '=').1 then .GreaterEqual else .Greater),
        (s0.matchesCh '=').2)
  else if ch = '/' then
    if (s0.matchesCh '/').1 then .ok (.skip, (s0.matchesCh '/').2.advance_to_eol)
    else .ok ((s0.matchesCh '/').2.scan_data_by_type .Slash, (s0.matchesCh '/').2)
  else if ch = ' ' || ch = '\r' || ch = '\t' then .ok (.skip, s0)
  else if ch = '\n' then .ok (.skip, { s0 with line := s0.line + 1 })
  else if ch = '"' then s0.scan_string
  else if ch.isDigit then s0.scan_number
  else if ch.isAlpha then s0.scan_identifier
  else .error (s0.error .UnexpectedCharacter)

/-- `Scanner::scan_next`. -/
def scan_next (s : Scanner) : FoxResult (ScanData × Scanner) :=
  match s.advance with
  | (none, s0) => .ok (s0.scan_data_by_type .Eof, s0)
  | (some ch, s0) => s0.scan_next_dispatch ch

theorem advance_to_eol_src (s : Scanner) :
    (s.advance_to_eol).source = s.source ∧
      s.current ≤ (s.advance_to_eol).current := by
  induction s using advance_to_eol.induct with
  | case1 x hp => rw [advance_to_eol, hp]; exact ⟨rfl, Nat.le_refl _⟩
  | case2 x hp => rw [advance_to_eol, hp]; exact ⟨rfl, Nat.le_refl _⟩
  | case3 x ch hp hnl ih =>
    rw [advance_to_eol, hp]
    simp only [hnl, if_false]
    refine ⟨ih.1, ?_⟩
    have := ih.2
    simp only at this
    omega

theorem matchesCh_src (s : Scanner) (c : Char) :
    ((s.matchesCh c).2).source = s.source ∧
      s.current ≤ ((s.matchesCh c).2).current := by
  rw [matchesCh]
  split <;> simp

theorem skip_digits_src (s : Scanner) :
    (s.skip_digits).source = s.source ∧ s.current ≤ (s.skip_digits).current := by
  induction s using skip_digits.induct with
  | case1 x hd ih =>
    rw [skip_digits]
    simp only [hd, dif_pos]
    refine ⟨ih.1, ?_⟩
    have := ih.2
    simp only at this
    omega
  | case2 x hd =>
    rw [skip_digits]
    simp only [hd, dif_neg, not_false_iff]
    exact ⟨rfl, Nat.le_refl _⟩

theorem skip_alphanumeric_src (s : Scanner) :
    (s.skip_alphanumeric).source = s.source ∧
      s.current ≤ (s.skip_alphanumeric).current := by
  induction s using skip_alphanumeric.induct with
  | case1 x hd ih =>
    rw [skip_alphanumeric]
    simp only [hd, dif_pos]
    refine ⟨ih.1, ?_⟩
    have := ih.2
    simp only at this
    omega
  | case2 x hd =>
    rw [skip_alphanumeric]
    simp only [hd, dif_neg, not_false_iff]
    exact ⟨rfl, Nat.le_refl _⟩

theorem scan_string_src {s s' : Scanner} {d : ScanData}
    (h : s.scan_string = .ok (d, s')) :
    s'.source = s.source ∧ s.current ≤ s'.current := by
  induction s using scan_string.induct with
  | case1 x hp => rw [scan_string, hp] at h; exact absurd h (by simp)
  | case2 x hp =>
    rw [scan_string, hp] at h
    simp only [advance, Except.ok.injEq, Prod.mk.injEq] at h
    obtain ⟨-, rfl⟩ := h
    simp
  | case3 x ch hp s1 s2 hq ih =>
    unfold_let s2 s1 at ih
    rw [scan_string, hp] at h
    simp only [hq, if_false] at h
    by_cases hn : ch = '\n'
    · simp only [hn, if_true, advance] at h ih
      have := ih h
      simp only [advance] at this
      exact ⟨this.1, by simp at this ⊢; omega⟩
    · simp only [hn, if_false, advance] at h ih
      have := ih h
      simp only [advance] at this
      exact ⟨this.1, by simp at this ⊢; omega⟩

theorem scan_number_src {s s' : Scanner} {d : ScanData}
    (h : s.scan_number = .ok (d, s')) :
    s'.source = s.source ∧ s.current ≤ s'.current := by
  simp only [scan_number] at h
  split at h
  · exact absurd h (by simp)
  · simp only [Except.ok.injEq, Prod.mk.injEq] at h
    obtain ⟨-, rfl⟩ := h
    have h1 := skip_digits_src s
    split
    · have h3 := skip_digits_src
        { s.skip_digits with current := s.skip_digits.current + 1 }
      have e1 := h3.1
      have e2 := h3.2
      simp only at e1 e2
      refine ⟨by rw [e1, h1.1], ?_⟩
      have := h1.2
      omega
    · have h3 := skip_digits_src s.skip_digits
      refine ⟨by rw [h3.1, h1.1], ?_⟩
      have := h1.2
      have := h3.2
      omega

theorem scan_identifier_src {s s' : Scanner} {d : ScanData}
    (h : s.scan_identifier = .ok (d, s')) :
    s'.source = s.source ∧ s.current ≤ s'.current := by
  rw [scan_identifier] at h
  simp only [Except.ok.injEq, Prod.mk.injEq] at h
  obtain ⟨-, rfl⟩ := h
  exact skip_alphanumeric_src s

theorem scan_next_dispatch_src {s0 s' : Scanner} {ch : Char} {d : ScanData}
    (h : s0.scan_next_dispatch ch = .ok (d, s')) :
    s'.source = s0.source ∧ s0.current ≤ s'.current := by
  rw [scan_next_dispatch] at h
  by_cases hc1 : ch = '('
  · rw [if_pos hc1] at h
    cases h; exact ⟨rfl, Nat.le_refl _⟩
  rw [if_neg hc1] at h
  by_cases hc2 : ch = ')'
  · rw [if_pos hc2] at h
    cases h; exact ⟨rfl, Nat.le_refl _⟩
  rw [if_neg hc2] at h
  by_cases hc3 : ch = '{'
  · rw [if_pos hc3] at h
    cases h; exact ⟨rfl, Nat.le_refl _⟩
  rw [if_neg hc3] at h
  by_cases hc4 : ch = '}'
  · rw [if_pos hc4] at h
    cases h; exact ⟨rfl, Nat.le_refl _⟩
  rw [if_neg hc4] at h
  by_cases hc5 : ch = ','
  · rw [if_pos hc5] at h
    cases h; exact ⟨rfl, Nat.le_refl _⟩
  rw [if_neg hc5] at h
  by_cases hc6 : ch = '.'
  · rw [if_pos hc6] at h
    cases h; exact ⟨rfl, Nat.le_refl _⟩
  rw [if_neg hc6] at h
  by_cases hc7 : ch = '-'
  · rw [if_pos hc7] at h
    cases h; exact ⟨rfl, Nat.le_refl _⟩
  rw [if_neg hc7] at h
  by_cases hc8 : ch = '+'
  · rw [if_pos hc8] at h
    cases h; exact ⟨rfl, Nat.le_refl _⟩
  rw [if_neg hc8] at h
  by_cases hc9 : ch = ';'
  · rw [if_pos hc9] at h
    cases h; exact ⟨rfl, Nat.le_refl _⟩
  rw [if_neg hc9] at h
  by_cases hc10 : ch = '*'
  · rw [if_pos hc10] at h
    cases h; exact ⟨rfl, Nat.le_refl _⟩
  rw [if_neg hc10] at h
  by_cases hc11 : ch = '!'
  · rw [if_pos hc11] at h
    cases h; exact matchesCh_src s0 '='
  rw [if_neg hc11] at h
  by_cases hc12 : ch = '='
  · rw [if_pos hc12] at h
    cases h; exact matchesCh_src s0 '='
  rw [if_neg hc12] at h
  by_cases hc13 : ch = '<'
  · rw [if_pos hc13] at h
    cases h; exact matchesCh_src s0 '='
  rw [if_neg hc13] at h
  by_cases hc14 : ch = '>'
  · rw [if_pos hc14] at h
    cases h; exact matchesCh_src s0 '='
  rw [if_neg hc14] at h
  by_cases hc15 : ch = '/'
  · rw [if_pos hc15] at h
    by_cases hm : (s0.matchesCh '/').1 = true
    · rw [if_pos hm] at h
      cases h
      exact ⟨(advance_to_eol_src _).1.trans (matchesCh_src s0 '/').1,
        le_trans (matchesCh_src s0 '/').2 (advance_to_eol_src _).2⟩
    · rw [if_neg hm] at h
      cases h
      exact matchesCh_src s0 '/'
  rw [if_neg hc15] at h
  by_cases hc16 : (ch = ' ' || ch = '\r' || ch = '\t') = true
  · rw [if_pos hc16] at h
    cases h; exact ⟨rfl, Nat.le_refl _⟩
  rw [if_neg hc16] at h
  by_cases hc17 : ch = '\n'
  · rw [if_pos hc17] at h
    cases h; exact ⟨rfl, Nat.le_refl _⟩
  rw [if_neg hc17] at h
  by_cases hc18 : ch = '"'
  · rw [if_pos hc18] at h
    exact scan_string_src h
  rw [if_neg hc18] at h
  by_cases hc19 : ch.isDigit = true
  · rw [if_pos hc19] at h
    exact scan_number_src h
  rw [if_neg hc19] at h
  by_cases hc20 : ch.isAlpha = true
  · rw [if_pos hc20] at h
    exact scan_identifier_src h
  rw [if_neg hc20] at h
  cases h

theorem scan_next_progress {s s' : Scanner} {d : ScanData}
    (h : s.scan_next = .ok (d, s')) :
    s'.source = s.source ∧ s.current < s'.current := by
  rw [scan_next, advance] at h
  cases hp : s.peek with
  | none =>
    rw [hp] at h
    cases h
    exact ⟨rfl, Nat.lt_succ_self _⟩
  | some ch =>
    rw [hp] at h
    have hd := scan_next_dispatch_src (h : scan_next_dispatch
      { s with current := s.current + 1 } ch = .ok (d, s'))
    refine ⟨hd.1, ?_⟩
    have h2 := hd.2
    simp only at h2
    omega

theorem scan_next_at_end {s : Scanner} (hlen : s.source.length ≤ s.current) :
    ∃ t s', s.scan_next = .ok (.token t, s') ∧ t.is_eof = true := by
  have hp : s.peek = none := by
    rw [peek]
    exact List.get?_eq_none.mpr hlen
  rw [scan_next, advance, hp]
  exact ⟨_, _, rfl, rfl⟩

/-- The `while !is_eof` loop of `Scanner::scan_tokens`: before each step
`start` is reset to `current`, then `scan_next` runs; skip data emits
nothing, tokens are pushed, and the loop stops after pushing the
end-of-input token. -/
def scan_tokens_aux (s : Scanner) (tokens : List Token) :
    FoxResult (List Token) :=
  match h : ({ s with start := s.current } : Scanner).scan_next with
  | .error e => .error e
  | .ok (.skip, s1) => scan_tokens_aux s1 tokens
  | .ok (.token t, s1) =>
    if t.is_eof then .ok (tokens ++ [t])
    else scan_tokens_aux s1 (tokens ++ [t])
termination_by s.source.length + 1 - s.current
decreasing_by
  · have hprog := scan_next_progress h
    have hlt : s.current < s.source.length := by
      by_contra hge
      obtain ⟨t', s'', ht, -⟩ :=
        scan_next_at_end (s := { s with start := s.current })
          (Nat.le_of_not_lt hge)
      rw [ht] at h
      cases h
    have hs : s1.source.length = s.source.length := by
      have := congrArg List.length hprog.1
      simpa using this
    have hc : s.current < s1.current := by
      have := hprog.2
      simpa using this
    omega
  · rename_i hne
    have hprog := scan_next_progress h
    have hlt : s.current < s.source.length := by
      by_contra hge
      obtain ⟨t', s'', ht, hteof⟩ :=
        scan_next_at_end (s := { s with start := s.current })
          (Nat.le_of_not_lt hge)
      rw [ht] at h
      cases h
      exact hne hteof
    have hs : s1.source.length = s.source.length := by
      have := congrArg List.length hprog.1
      simpa using this
    have hc : s.current < s1.current := by
      have := hprog.2
      simpa using this
    omega

theorem scan_tokens_aux_skip {s s1 : Scanner} (acc : List Token)
    (h : ({ s with start := s.current } : Scanner).scan_next =
      .ok (.skip, s1)) :
    scan_tokens_aux s acc = scan_tokens_aux s1 acc := by
  rw [scan_tokens_aux.eq_def]
  split
  · rename_i e he
    rw [he] at h
    cases h
  · rename_i s1' hsk
    rw [hsk] at h
    cases h
    rfl
  · rename_i t s1' ht
    rw [ht] at h
    cases h

theorem scan_tokens_aux_token {s s1 : Scanner} {t : Token} (acc : List Token)
    (h : ({ s with start := s.current } : Scanner).scan_next =
      .ok (.token t, s1)) :
    scan_tokens_aux s acc =
      if t.is_eof then .ok (acc ++ [t])
      else scan_tokens_aux s1 (acc ++ [t]) := by
  rw [scan_tokens_aux.eq_def]
  split
  · rename_i e he
    rw [he] at h
    cases h
  · rename_i s1' hsk
    rw [hsk] at h
    cases h
  · rename_i t' s1' ht
    rw [ht] at h
    cases h
    rfl

theorem scan_tokens_aux_eof (s : Scanner) (acc : List Token) :
    ∀ toks, scan_tokens_aux s acc = .ok toks →
    ∃ pre t, toks = acc ++ (pre ++ [t]) ∧ t.token_type = .Eof ∧
      ∀ x ∈ pre, x.token_type ≠ .Eof := by
  induction s, acc using scan_tokens_aux.induct with
  | case1 s tokens e he =>
    intro toks h
    rw [scan_tokens_aux.eq_def] at h
    split at h
    · cases h
    · rename_i s1' hsk
      rw [hsk] at he
      cases he
    · rename_i t' s1' ht
      rw [ht] at he
      cases he
  | case2 s tokens s1 hsk ih =>
    intro toks h
    rw [scan_tokens_aux_skip tokens hsk] at h
    exact ih toks h
  | case3 s tokens t s1 ht hteof =>
    intro toks h
    rw [scan_tokens_aux_token tokens ht, if_pos hteof] at h
    cases h
    refine ⟨[], t, by simp, ?_, by simp⟩
    simpa [Token.is_eof] using hteof
  | case4 s tokens t s1 ht hne ih =>
    intro toks h
    rw [scan_tokens_aux_token tokens ht, if_neg hne] at h
    obtain ⟨pre, te, heq, hte, hpre⟩ := ih toks h
    refine ⟨t :: pre, te, by simpa using heq, hte, ?_⟩
    intro x hx
    rcases List.mem_cons.mp hx with rfl | hx
    · simpa [Token.is_eof] using hne
    · exact hpre x hx

theorem take_takeWhile_len (p : Char → Bool) :
    ∀ l : List Char, l.take ((l.takeWhile p).length) = l.takeWhile p
  | [] => rfl
  | c :: l => by
    by_cases h : p c
    · simp [List.takeWhile_cons, h, take_takeWhile_len p l]
    · simp [List.takeWhile_cons, h]

/-- `skip_alphanumeric` consumes exactly the maximal run of
alphanumeric-or-underscore characters starting at `current`. -/
theorem skip_alphanumeric_run (s : Scanner) :
    s.skip_alphanumeric =
      { s with current := s.current +
          ((s.source.drop s.current).takeWhile
            (fun x => is_alphanumeric (some x))).length } := by
  induction s using skip_alphanumeric.induct with
  | case1 x hd ih =>
    rw [skip_alphanumeric]
    simp only [hd, dif_pos]
    rw [ih]
    obtain ⟨c, hc⟩ : ∃ c, x.peek = some c := by
      cases hp : x.peek with
      | none => rw [is_alphanumeric, is_matches_criteria, hp] at hd; simp at hd
      | some c => exact ⟨c, rfl⟩
    have hlt : x.current < x.source.length := peek_some_lt hc
    have hget : x.source[x.current] = c := by
      have := hc
      rw [peek, List.get?_eq_getElem?, List.getElem?_eq_getElem hlt] at this
      exact Option.some.injEq _ _ ▸ (by simpa using this)
    have hdrop : x.source.drop x.current = c :: x.source.drop (x.current + 1) := by
      rw [List.drop_eq_getElem_cons hlt, hget]
    have hpc : is_alphanumeric (some c) = true := by rw [← hc]; exact hd
    simp only
    rw [hdrop, List.takeWhile_cons, hpc]
    simp only [if_true, List.length_cons]
    congr 1
    omega
  | case2 x hd =>
    rw [skip_alphanumeric]
    simp only [hd, dif_neg, not_false_iff]
    cases hp : x.peek with
    | none =>
      have hlen : x.source.length ≤ x.current := by
        by_contra hlt
        rw [peek, List.get?_eq_getElem?, List.getElem?_eq_getElem
          (Nat.lt_of_not_le hlt)] at hp
        cases hp
      rw [List.drop_eq_nil_of_le hlen]
      simp
    | some c =>
      have hlt : x.current < x.source.length := peek_some_lt hp
      have hget : x.source[x.current] = c := by
        have := hp
        rw [peek, List.get?_eq_getElem?, List.getElem?_eq_getElem hlt] at this
        simpa using this
      have hdrop : x.source.drop x.current =
          c :: x.source.drop (x.current + 1) := by
        rw [List.drop_eq_getElem_cons hlt, hget]
      have hpc : is_alphanumeric (some c) = false := by
        rw [← hp]
        exact Bool.not_eq_true _ ▸ (by simpa using hd)
      rw [hdrop, List.takeWhile_cons, hpc]
      simp

theorem isAlpha_not_isDigit {c : Char} (hc : c.isAlpha = true) :
    ¬c.isDigit = true := by
  intro hd
  simp [Char.isAlpha, Char.isUpper, Char.isLower, Char.isDigit] at hc hd
  obtain ⟨h1, h2⟩ := hd
  have h2' : c.val.toNat ≤ 57 := h2
  rcases hc with ⟨h3, h4⟩ | ⟨h3, h4⟩
  · have h3' : 65 ≤ c.val.toNat := h3
    omega
  · have h3' : 97 ≤ c.val.toNat := h3
    omega

theorem peek_drop {s : Scanner} {c : Char} (hp : s.peek = some c) :
    s.source.drop s.current = c :: s.source.drop (s.current + 1) := by
  have hlt : s.current < s.source.length := peek_some_lt hp
  have hget : s.source[s.current] = c := by
    rw [peek, List.get?_eq_getElem?, List.getElem?_eq_getElem hlt] at hp
    simpa using hp
  rw [List.drop_eq_getElem_cons hlt, hget]

/-- On an ASCII letter, `scan_next` falls through every other dispatch arm
into `scan_identifier`. -/
theorem scan_next_dispatch_alpha (s0 : Scanner) {c : Char}
    (hc : c.isAlpha = true) :
    s0.scan_next_dispatch c = s0.scan_identifier := by
  rw [scan_next_dispatch]
  rw [if_neg (show ¬(c = '(') by rintro rfl; exact absurd hc (by decide))]
  rw [if_neg (show ¬(c = ')') by rintro rfl; exact absurd hc (by decide))]
  rw [if_neg (show ¬(c = '{') by rintro rfl; exact absurd hc (by decide))]
  rw [if_neg (show ¬(c = '}') by rintro rfl; exact absurd hc (by decide))]
  rw [if_neg (show ¬(c = ',') by rintro rfl; exact absurd hc (by decide))]
  rw [if_neg (show ¬(c = '.') by rintro rfl; exact absurd hc (by decide))]
  rw [if_neg (show ¬(c = '-') by rintro rfl; exact absurd hc (by decide))]
  rw [if_neg (show ¬(c = '+') by rintro rfl; exact absurd hc (by decide))]
  rw [if_neg (show ¬(c = ';') by rintro rfl; exact absurd hc (by decide))]
  rw [if_neg (show ¬(c = '*') by rintro rfl; exact absurd hc (by decide))]
  rw [if_neg (show ¬(c = '!') by rintro rfl; exact absurd hc (by decide))]
  rw [if_neg (show ¬(c = '=') by rintro rfl; exact absurd hc (by decide))]
  rw [if_neg (show ¬(c = '<') by rintro rfl; exact absurd hc (by decide))]
  rw [if_neg (show ¬(c = '>') by rintro rfl; exact absurd hc (by decide))]
  rw [if_neg (show ¬(c = '/') by rintro rfl; exact absurd hc (by decide))]
  rw [if_neg (show ¬((c = ' ' || c = '\r' || c = '\t') = true) by
    intro hw; simp at hw
    rcases hw with (rfl | rfl) | rfl <;> exact absurd hc (by decide))]
  rw [if_neg (show ¬(c = '\n') by rintro rfl; exact absurd hc (by decide))]
  rw [if_neg (show ¬(c = '"') by rintro rfl; exact absurd hc (by decide))]
  rw [if_neg (by simpa using isAlpha_not_isDigit hc), if_pos hc]

/-- C8 (amended): when the next unscanned character is an ASCII letter —
but not `_`, which instead fails with `UnexpectedCharacter` — `scan_next`
scans an identifier: it consumes the maximal run of alphanumerics and `_`
and emits the keyword kind matching the completed lexeme (`identifier` on
a miss).  The `start = current` hypothesis is the loop invariant
`scan_tokens` establishes before each `scan_next`. -/
theorem c8_alpha_scans_identifier_maximal_run (s : Scanner) (c : Char)
    (hc : c.isAlpha = true) (hp : s.peek = some c)
    (hstart : s.start = s.current) :
    s.scan_next = .ok (.token (Token.mk
        (keyword_type (String.mk (c ::
          (s.source.drop (s.current + 1)).takeWhile
            (fun x => is_alphanumeric (some x)))))
        "" Object.nil
        ⟨s.line, s.current + 1 +
          ((s.source.drop (s.current + 1)).takeWhile
            (fun x => is_alphanumeric (some x))).length⟩),
      { s with current := s.current + 1 +
          ((s.source.drop (s.current + 1)).takeWhile
            (fun x => is_alphanumeric (some x))).length }) := by
  have h0 : s.scan_next =
      ({ s with current := s.current + 1 } : Scanner).scan_next_dispatch c := by
    rw [scan_next, advance, hp]
  rw [h0, scan_next_dispatch_alpha _ hc, scan_identifier, skip_alphanumeric_run]
  simp only [scan_data_by_type, scan_data_by_type_literal, token_with_literal,
    substring, code_location]
  rw [hstart]
  have harith : s.current + 1 +
      ((s.source.drop (s.current + 1)).takeWhile
        (fun x => is_alphanumeric (some x))).length - s.current =
      ((s.source.drop (s.current + 1)).takeWhile
        (fun x => is_alphanumeric (some x))).length + 1 := by omega
  rw [harith, peek_drop hp, List.take_succ_cons, take_takeWhile_len,
    if_pos (by omega : s.current < s.current + 1 +
      ((s.source.drop (s.current + 1)).takeWhile
        (fun x => is_alphanumeric (some x))).length)]

theorem scan_tokens_aux_error {s : Scanner} {e : FoxError} (acc : List Token)
    (h : ({ s with start := s.current } : Scanner).scan_next = .error e) :
    scan_tokens_aux s acc = .error e := by
  rw [scan_tokens_aux.eq_def]
  split
  · rename_i e' he
    rw [he] at h
    cases h
    rfl
  · rename_i s1' hsk
    rw [hsk] at h
    cases h
  · rename_i t' s1' ht
    rw [ht] at h
    cases h

/-- `Scanner::scan_tokens`. -/
def scan_tokens (s : Scanner) : FoxResult (List Token) :=
  scan_tokens_aux s []

end Scanner

/-! ## Parser (`parser.rs`)

The recursive-descent parser is embedded with an explicit fuel parameter:
every method of the mutual recursion (and every `while`/`loop` iteration)
decrements the fuel, and exhausted fuel yields a `Bug`-kind error that no
actual parse produces (the Rust recursion is bounded by the token list).
The generic `Parser::parse_binary` combinator is instantiated once per
binary precedence level (`equality`, `comparison`, `term`, `factor`). -/

def MAX_FUNCTION_ARGUMENT_COUNT : Nat := 255

/-- The fuel-exhaustion marker of the embedding (not a source error). -/
def fuelError : FoxError := FoxError.bug "recursion fuel exhausted"

/-- Parser state, from `parser.rs` (`Parser`): token slice and cursor. -/
structure PState where
  tokens : List Token
  current : Nat

namespace PState

/-- `Parser::new`. -/
def new (tokens : List Token) : PState := ⟨tokens, 0⟩

/-- `Parser::peek`. -/
def peek (p : PState) : Option Token := p.tokens.get? p.current

/-- `Parser::is_at_end`. -/
def is_at_end (p : PState) : Bool :=
  match p.tokens.get? p.current with
  | none => true
  | some token => token.is_eof

/-- `Parser::advance`: returns the peeked token, bumping the cursor only
when one is present. -/
def advance (p : PState) : Option Token × PState :=
  match p.peek with
  | some t => (some t, { p with current := p.current + 1 })
  | none => (none, p)

/-- `Parser::previous_token`. -/
def previous_token (p : PState) : Option Token :=
  if p.current = 0 then none
  else p.tokens.get? (p.current - 1)

/-- `Parser::error`. -/
def error (p : PState) (error_kind : ErrorKind) : FoxError :=
  FoxError.token error_kind p.previous_token

/-- `Parser::force_previous_token`. -/
def force_previous_token (p : PState) : FoxResult Token :=
  match p.previous_token with
  | none => .error (p.error .ExpectedOperator)
  | some token => .ok token

/-- `Parser::check_type`. -/
def check_type (p : PState) (tt : TokenType) : Bool :=
  match p.peek with
  | none => false
  | some value => value.token_type == tt

/-- `Parser::matches` (named `matchesTok` because `matches` is reserved in
Lean): advances past the next token when its type is in `types`. -/
def matchesTok (p : PState) (types : List TokenType) : Bool × PState :=
  match types with
  | [] => (false, p)
  | t :: rest =>
    if p.check_type t then (true, (p.advance).2)
    else p.matchesTok rest

/-- `Parser::consume_token`. -/
def consume_token (p : PState) (t_type : TokenType) (message : String) :
    FoxResult (Token × PState) :=
  let r := if p.check_type t_type then p.advance else (none, p)
  match r.1 with
  | none => .error (r.2.error (.Parse message))
  | some token => .ok (token, r.2)

/-- The pure desugaring assembly at the end of `Parser::for_statement`:
append the increment to the body as a block, wrap in a while when a
condition is present, and prepend the initializer as an outer block. -/
def for_assemble (initializer : Option Statement)
    (condition : Option Expression) (increment : Option Expression)
    (body : Statement) : Statement :=
  let body1 :=
    match increment with
    | some inc => Statement.block [body, .expression inc]
    | none => body
  let body2 :=
    match condition with
    | some c => Statement.whileStmt c body1
    | none => body1
  match initializer with
  | some i => Statement.block [i, body2]
  | none => body2

mutual

/-- The `while !is_at_end` loop of `Parser::parse`. -/
def parseLoop (fuel : Nat) (p : PState) (statements : List Statement) :
    FoxResult (List Statement) :=
  match fuel with
  | 0 => .error fuelError
  | fuel + 1 =>
    if p.is_at_end then .ok statements
    else
      match declaration fuel p with
      | .error e => .error e
      | .ok (statement, p1) => parseLoop fuel p1 (statements ++ [statement])

/-- `Parser::declaration`. -/
def declaration (fuel : Nat) (p : PState) : FoxResult (Statement × PState) :=
  match fuel with
  | 0 => .error fuelError
  | fuel + 1 =>
    let m1 := p.matchesTok [.Fun]
    if m1.1 then function fuel m1.2 "function"
    else
      let m2 := p.matchesTok [.Var]
      if m2.1 then var_declaration fuel m2.2
      else statement fuel p

/-- `Parser::function`. -/
def function (fuel : Nat) (p : PState) (kind : String) :
    FoxResult (Statement × PState) :=
  match fuel with
  | 0 => .error fuelError
  | fuel + 1 =>
    match p.consume_token .Identifier ("Expect " ++ kind ++ " name") with
    | .error e => .error e
    | .ok (name, p1) =>
      match p1.consume_token .LeftParenthesis
          ("Expect '(' after " ++ kind ++ " name") with
      | .error e => .error e
      | .ok (_, p2) =>
        match
          (if p2.check_type .RightParenthesis then .ok ([], p2)
           else function_params fuel p2 [] :
            FoxResult (List Token × PState)) with
        | .error e => .error e
        | .ok (params, p3) =>
          match p3.consume_token .RightParenthesis
              "Expect ')' after parameters" with
          | .error e => .error e
          | .ok (_, p4) =>
            match p4.consume_token .LeftBrace
                ("Expect '\x7b' before " ++ kind ++ " body") with
            | .error e => .error e
            | .ok (_, p5) =>
              match block fuel p5 with
              | .error e => .error e
              | .ok (body, p6) => .ok (.function (.mk name params body), p6)

/-- The `while next_param` loop of `Parser::function`. -/
def function_params (fuel : Nat) (p : PState) (params : List Token) :
    FoxResult (List Token × PState) :=
  match fuel with
  | 0 => .error fuelError
  | fuel + 1 =>
    if params.length ≥ MAX_FUNCTION_ARGUMENT_COUNT then
      .error (p.error .TooManyFunctionArguments)
    else
      match p.consume_token .Identifier "Expect parameter name" with
      | .error e => .error e
      | .ok (param, p1) =>
        let m := p1.matchesTok [.Comma]
        if m.1 then function_params fuel m.2 (params ++ [param])
        else .ok (params ++ [param], m.2)

/-- `Parser::var_declaration`. -/
def var_declaration (fuel : Nat) (p : PState) :
    FoxResult (Statement × PState) :=
  match fuel with
  | 0 => .error fuelError
  | fuel + 1 =>
    match p.consume_token .Identifier "Expect variable name" with
    | .error e => .error e
    | .ok (name, p1) =>
      let m := p1.matchesTok [.Equal]
      match
        (if m.1 then
          match expression fuel m.2 with
          | .error e => .error e
          | .ok (expr, p2) => .ok (some expr, p2)
         else .ok (none, p1) :
          FoxResult (Option Expression × PState)) with
      | .error e => .error e
      | .ok (initializer, p2) =>
        match p2.consume_token .Semicolon
            "Expected ';' after variable declaration" with
        | .error e => .error e
        | .ok (_, p3) => .ok (.var name initializer, p3)

/-- `Parser::statement`. -/
def statement (fuel : Nat) (p : PState) : FoxResult (Statement × PState) :=
  match fuel with
  | 0 => .error fuelError
  | fuel + 1 =>
    let m1 := p.matchesTok [.For]
    if m1.1 then for_statement fuel m1.2
    else
      let m2 := p.matchesTok [.If]
      if m2.1 then if_statement fuel m2.2
      else
        let m3 := p.matchesTok [.Print]
        if m3.1 then print_statement fuel m3.2
        else
          let m4 := p.matchesTok [.Return]
          if m4.1 then return_statement fuel m4.2
          else
            let m5 := p.matchesTok [.While]
            if m5.1 then while_statement fuel m5.2
            else
              let m6 := p.matchesTok [.LeftBrace]
              if m6.1 then
                match block fuel m6.2 with
                | .error e => .error e
                | .ok (statements, p1) => .ok (.block statements, p1)
              else expression_statement fuel p

/-- `Parser::return_statement`. -/
def return_statement (fuel : Nat) (p : PState) :
    FoxResult (Statement × PState) :=
  match fuel with
  | 0 => .error fuelError
  | fuel + 1 =>
    match p.force_previous_token with
    | .error e => .error e
    | .ok keyword =>
      match
        (if ¬p.check_type .Semicolon then
          match expression fuel p with
          | .error e => .error e
          | .ok (expr, p1) => .ok (some expr, p1)
         else .ok (none, p) :
          FoxResult (Option Expression × PState)) with
      | .error e => .error e
      | .ok (value, p1) =>
        match p1.consume_token .Semicolon "Expect ';' after return value" with
        | .error e => .error e
        | .ok (_, p2) => .ok (.ret keyword value, p2)

/-- The initializer clause of `Parser::for_statement` (the first
`if/else if/else` of its body). -/
def for_initializer (fuel : Nat) (p : PState) :
    FoxResult (Option Statement × PState) :=
  match fuel with
  | 0 => .error fuelError
  | fuel + 1 =>
    let m1 := p.matchesTok [.Semicolon]
    if m1.1 then .ok (none, m1.2)
    else
      let m2 := p.matchesTok [.Var]
      if m2.1 then
        match var_declaration fuel m2.2 with
        | .error e => .error e
        | .ok (s, p1) => .ok (some s, p1)
      else
        match expression_statement fuel p with
        | .error e => .error e
        | .ok (s, p1) => .ok (some s, p1)

/-- The condition clause of `Parser::for_statement`. -/
def for_condition (fuel : Nat) (p : PState) :
    FoxResult (Option Expression × PState) :=
  match fuel with
  | 0 => .error fuelError
  | fuel + 1 =>
    if p.check_type .Semicolon then .ok (none, p)
    else
      match expression fuel p with
      | .error e => .error e
      | .ok (e, p1) => .ok (some e, p1)

/-- The increment clause of `Parser::for_statement`. -/
def for_increment (fuel : Nat) (p : PState) :
    FoxResult (Option Expression × PState) :=
  match fuel with
  | 0 => .error fuelError
  | fuel + 1 =>
    if p.check_type .RightParenthesis then .ok (none, p)
    else
      match expression fuel p with
      | .error e => .error e
      | .ok (e, p1) => .ok (some e, p1)

/-- `Parser::for_statement`. -/
def for_statement (fuel : Nat) (p : PState) :
    FoxResult (Statement × PState) :=
  match fuel with
  | 0 => .error fuelError
  | fuel + 1 =>
    match p.consume_token .LeftParenthesis "Expect '(' after 'for'" with
    | .error e => .error e
    | .ok (_, p1) =>
      match for_initializer fuel p1 with
      | .error e => .error e
      | .ok (initializer, p2) =>
        match for_condition fuel p2 with
        | .error e => .error e
        | .ok (condition, p3) =>
          match p3.consume_token .Semicolon
              "Expected ';' after loop condition" with
          | .error e => .error e
          | .ok (_, p4) =>
            match for_increment fuel p4 with
            | .error e => .error e
            | .ok (increment, p5) =>
              match p5.consume_token .RightParenthesis
                  "Expected ')' after for clauses" with
              | .error e => .error e
              | .ok (_, p6) =>
                match statement fuel p6 with
                | .error e => .error e
                | .ok (body, p7) =>
                  .ok (for_assemble initializer condition increment body, p7)

/-- `Parser::while_statement`. -/
def while_statement (fuel : Nat) (p : PState) :
    FoxResult (Statement × PState) :=
  match fuel with
  | 0 => .error fuelError
  | fuel + 1 =>
    match p.consume_token .LeftParenthesis "Expected '(' after 'while'" with
    | .error e => .error e
    | .ok (_, p1) =>
      match expression fuel p1 with
      | .error e => .error e
      | .ok (condition, p2) =>
        match p2.consume_token .RightParenthesis
            "Expected ')' after condition" with
        | .error e => .error e
        | .ok (_, p3) =>
          match statement fuel p3 with
          | .error e => .error e
          | .ok (body, p4) => .ok (.whileStmt condition body, p4)

/-- `Parser::if_statement`. -/
def if_statement (fuel : Nat) (p : PState) :
    FoxResult (Statement × PState) :=
  match fuel with
  | 0 => .error fuelError
  | fuel + 1 =>
    match p.consume_token .LeftParenthesis "Expected '(' after 'if'" with
    | .error e => .error e
    | .ok (_, p1) =>
      match expression fuel p1 with
      | .error e => .error e
      | .ok (condition, p2) =>
        match p2.consume_token .RightParenthesis
            "Expect ')' after if condition" with
        | .error e => .error e
        | .ok (_, p3) =>
          match statement fuel p3 with
          | .error e => .error e
          | .ok (then_branch, p4) =>
            let m := p4.matchesTok [.Else]
            if m.1 then
              match statement fuel m.2 with
              | .error e => .error e
              | .ok (else_branch, p5) =>
                .ok (.ifStmt condition then_branch (some else_branch), p5)
            else .ok (.ifStmt condition then_branch none, p4)

/-- `Parser::block`. -/
def block (fuel : Nat) (p : PState) :
    FoxResult (List Statement × PState) :=
  match fuel with
  | 0 => .error fuelError
  | fuel + 1 => blockLoop fuel p []

/-- The `while !check(RightBrace) && !is_at_end` loop of `Parser::block`,
followed by the closing-brace consume. -/
def blockLoop (fuel : Nat) (p : PState) (statements : List Statement) :
    FoxResult (List Statement × PState) :=
  match fuel with
  | 0 => .error fuelError
  | fuel + 1 =>
    if ¬p.check_type .RightBrace ∧ ¬p.is_at_end then
      match declaration fuel p with
      | .error e => .error e
      | .ok (stmt, p1) => blockLoop fuel p1 (statements ++ [stmt])
    else
      match p.consume_token .RightBrace "Expected '\x7d'" with
      | .error e => .error e
      | .ok (_, p1) => .ok (statements, p1)

/-- `Parser::print_statement`. -/
def print_statement (fuel : Nat) (p : PState) :
    FoxResult (Statement × PState) :=
  match fuel with
  | 0 => .error fuelError
  | fuel + 1 =>
    match expression fuel p with
    | .error e => .error e
    | .ok (expr, p1) =>
      match p1.consume_token .Semicolon "Expected ';' after value" with
      | .error e => .error e
      | .ok (_, p2) => .ok (.print expr, p2)

/-- `Parser::expression_statement`. -/
def expression_statement (fuel : Nat) (p : PState) :
    FoxResult (Statement × PState) :=
  match fuel with
  | 0 => .error fuelError
  | fuel + 1 =>
    match expression fuel p with
    | .error e => .error e
    | .ok (expr, p1) =>
      match p1.consume_token .Semicolon "Expected ';' after expression" with
      | .error e => .error e
      | .ok (_, p2) => .ok (.expression expr, p2)

/-- `Parser::expression`. -/
def expression (fuel : Nat) (p : PState) :
    FoxResult (Expression × PState) :=
  match fuel with
  | 0 => .error fuelError
  | fuel + 1 => assignment fuel p

/-- `Parser::assignment`. -/
def assignment (fuel : Nat) (p : PState) :
    FoxResult (Expression × PState) :=
  match fuel with
  | 0 => .error fuelError
  | fuel + 1 =>
    match orExpr fuel p with
    | .error e => .error e
    | .ok (expr, p1) =>
      let m := p1.matchesTok [.Equal]
      if ¬m.1 then .ok (expr, p1)
      else
        match m.2.force_previous_token with
        | .error e => .error e
        | .ok equals =>
          match assignment fuel m.2 with
          | .error e => .error e
          | .ok (value, p2) =>
            match expr with
            | .variable name => .ok (.assign name value, p2)
            | _ => .error (FoxError.token .InvalidAssignmentTarget (some equals))

/-- `Parser::or`. -/
def orExpr (fuel : Nat) (p : PState) : FoxResult (Expression × PState) :=
  match fuel with
  | 0 => .error fuelError
  | fuel + 1 =>
    match andExpr fuel p with
    | .error e => .error e
    | .ok (expr, p1) => orLoop fuel p1 expr

/-- The `while matches(Or)` loop of `Parser::or`. -/
def orLoop (fuel : Nat) (p : PState) (expr : Expression) :
    FoxResult (Expression × PState) :=
  match fuel with
  | 0 => .error fuelError
  | fuel + 1 =>
    let m := p.matchesTok [.Or]
    if m.1 then
      match m.2.force_previous_token with
      | .error e => .error e
      | .ok operator =>
        match andExpr fuel m.2 with
        | .error e => .error e
        | .ok (right, p1) => orLoop fuel p1 (.logical expr operator right)
    else .ok (expr, p)

/-- `Parser::and`. -/
def andExpr (fuel : Nat) (p : PState) : FoxResult (Expression × PState) :=
  match fuel with
  | 0 => .error fuelError
  | fuel + 1 =>
    match equality fuel p with
    | .error e => .error e
    | .ok (expr, p1) => andLoop fuel p1 expr

/-- The `while matches(And)` loop of `Parser::and`. -/
def andLoop (fuel : Nat) (p : PState) (expr : Expression) :
    FoxResult (Expression × PState) :=
  match fuel with
  | 0 => .error fuelError
  | fuel + 1 =>
    let m := p.matchesTok [.And]
    if m.1 then
      match m.2.force_previous_token with
      | .error e => .error e
      | .ok operator =>
        match equality fuel m.2 with
        | .error e => .error e
        | .ok (right, p1) => andLoop fuel p1 (.logical expr operator right)
    else .ok (expr, p)

/-- `Parser::equality` (`parse_binary` over `comparison` with
`[BangEqual, EqualEqual]`). -/
def equality (fuel : Nat) (p : PState) : FoxResult (Expression × PState) :=
  match fuel with
  | 0 => .error fuelError
  | fuel + 1 =>
    match comparison fuel p with
    | .error e => .error e
    | .ok (expr, p1) => equalityLoop fuel p1 expr

def equalityLoop (fuel : Nat) (p : PState) (expr : Expression) :
    FoxResult (Expression × PState) :=
  match fuel with
  | 0 => .error fuelError
  | fuel + 1 =>
    let m := p.matchesTok [.BangEqual, .EqualEqual]
    if m.1 then
      match m.2.force_previous_token with
      | .error e => .error e
      | .ok operator =>
        match comparison fuel m.2 with
        | .error e => .error e
        | .ok (right, p1) => equalityLoop fuel p1 (.binary expr operator right)
    else .ok (expr, p)

/-- `Parser::comparison` (`parse_binary` over `term`). -/
def comparison (fuel : Nat) (p : PState) : FoxResult (Expression × PState) :=
  match fuel with
  | 0 => .error fuelError
  | fuel + 1 =>
    match term fuel p with
    | .error e => .error e
    | .ok (expr, p1) => comparisonLoop fuel p1 expr

def comparisonLoop (fuel : Nat) (p : PState) (expr : Expression) :
    FoxResult (Expression × PState) :=
  match fuel with
  | 0 => .error fuelError
  | fuel + 1 =>
    let m := p.matchesTok [.Greater, .GreaterEqual, .Less, .LessEqual]
    if m.1 then
      match m.2.force_previous_token with
      | .error e => .error e
      | .ok operator =>
        match term fuel m.2 with
        | .error e => .error e
        | .ok (right, p1) => comparisonLoop fuel p1 (.binary expr operator right)
    else .ok (expr, p)

/-- `Parser::term` (`parse_binary` over `factor` with `[Minus, Plus]`). -/
def term (fuel : Nat) (p : PState) : FoxResult (Expression × PState) :=
  match fuel with
  | 0 => .error fuelError
  | fuel + 1 =>
    match factor fuel p with
    | .error e => .error e
    | .ok (expr, p1) => termLoop fuel p1 expr

def termLoop (fuel : Nat) (p : PState) (expr : Expression) :
    FoxResult (Expression × PState) :=
  match fuel with
  | 0 => .error fuelError
  | fuel + 1 =>
    let m := p.matchesTok [.Minus, .Plus]
    if m.1 then
      match m.2.force_previous_token with
      | .error e => .error e
      | .ok operator =>
        match factor fuel m.2 with
        | .error e => .error e
        | .ok (right, p1) => termLoop fuel p1 (.binary expr operator right)
    else .ok (expr, p)

/-- `Parser::factor` (`parse_binary` over `unary` with `[Slash, Star]`). -/
def factor (fuel : Nat) (p : PState) : FoxResult (Expression × PState) :=
  match fuel with
  | 0 => .error fuelError
  | fuel + 1 =>
    match unary fuel p with
    | .error e => .error e
    | .ok (expr, p1) => factorLoop fuel p1 expr

def factorLoop (fuel : Nat) (p : PState) (expr : Expression) :
    FoxResult (Expression × PState) :=
  match fuel with
  | 0 => .error fuelError
  | fuel + 1 =>
    let m := p.matchesTok [.Slash, .Star]
    if m.1 then
      match m.2.force_previous_token with
      | .error e => .error e
      | .ok operator =>
        match unary fuel m.2 with
        | .error e => .error e
        | .ok (right, p1) => factorLoop fuel p1 (.binary expr operator right)
    else .ok (expr, p)

/-- `Parser::unary`. -/
def unary (fuel : Nat) (p : PState) : FoxResult (Expression × PState) :=
  match fuel with
  | 0 => .error fuelError
  | fuel + 1 =>
    let m := p.matchesTok [.Bang, .Minus]
    if m.1 then
      match m.2.force_previous_token with
      | .error e => .error e
      | .ok operator =>
        match unary fuel m.2 with
        | .error e => .error e
        | .ok (right, p1) => .ok (.unary right operator, p1)
    else call fuel p

/-- `Parser::call`. -/
def call (fuel : Nat) (p : PState) : FoxResult (Expression × PState) :=
  match fuel with
  | 0 => .error fuelError
  | fuel + 1 =>
    match primary fuel p with
    | .error e => .error e
    | .ok (expr, p1) => callLoop fuel p1 expr

/-- The `while matches(LeftParenthesis)` loop of `Parser::call`. -/
def callLoop (fuel : Nat) (p : PState) (expr : Expression) :
    FoxResult (Expression × PState) :=
  match fuel with
  | 0 => .error fuelError
  | fuel + 1 =>
    let m := p.matchesTok [.LeftParenthesis]
    if m.1 then
      match finish_call fuel m.2 expr with
      | .error e => .error e
      | .ok (expr1, p1) => callLoop fuel p1 expr1
    else .ok (expr, p)

/-- `Parser::finish_call`. -/
def finish_call (fuel : Nat) (p : PState) (callee : Expression) :
    FoxResult (Expression × PState) :=
  match fuel with
  | 0 => .error fuelError
  | fuel + 1 =>
    match
      (if ¬p.check_type .RightParenthesis then finish_call_args fuel p []
       else .ok ([], p) :
        FoxResult (List Expression × PState)) with
    | .error e => .error e
    | .ok (args, p1) =>
      match p1.consume_token .RightParenthesis
          "Expected ')' after arguments" with
      | .error e => .error e
      | .ok (paren, p2) => .ok (.call callee paren args, p2)

/-- The argument `loop` of `Parser::finish_call`: checks the 255 bound
before parsing each next argument. -/
def finish_call_args (fuel : Nat) (p : PState) (args : List Expression) :
    FoxResult (List Expression × PState) :=
  match fuel with
  | 0 => .error fuelError
  | fuel + 1 =>
    if args.length ≥ MAX_FUNCTION_ARGUMENT_COUNT then
      .error (p.error .TooManyFunctionArguments)
    else
      match expression fuel p with
      | .error e => .error e
      | .ok (expr, p1) =>
        let m := p1.matchesTok [.Comma]
        if m.1 then finish_call_args fuel m.2 (args ++ [expr])
        else .ok (args ++ [expr], m.2)

/-- `Parser::primary`. -/
def primary (fuel : Nat) (p : PState) : FoxResult (Expression × PState) :=
  match fuel with
  | 0 => .error fuelError
  | fuel + 1 =>
    let m1 := p.matchesTok [.False]
    if m1.1 then .ok (.literal (.bool false), m1.2)
    else
      let m2 := p.matchesTok [.True]
      if m2.1 then .ok (.literal (.bool true), m2.2)
      else
        let m3 := p.matchesTok [.Nil]
        if m3.1 then .ok (.literal .nil, m3.2)
        else
          let m4 := p.matchesTok [.Number, .String]
          if m4.1 then
            match m4.2.force_previous_token with
            | .error e => .error e
            | .ok prev => .ok (.literal prev.literal, m4.2)
          else
            let m5 := p.matchesTok [.Identifier]
            if m5.1 then
              match m5.2.force_previous_token with
              | .error e => .error e
              | .ok prev => .ok (.variable prev, m5.2)
            else
              let m6 := p.matchesTok [.LeftParenthesis]
              if m6.1 then
                match expression fuel m6.2 with
                | .error e => .error e
                | .ok (expr, p1) =>
                  match p1.consume_token .RightParenthesis "Expected ')'" with
                  | .error e => .error e
                  | .ok (_, p2) => .ok (.grouping expr, p2)
              else .error (p.error .ExpressionExpected)

end

/-- `Parser::parse`. -/
def parse (fuel : Nat) (p : PState) : FoxResult (List Statement) :=
  parseLoop fuel p []

end PState

/-! ## Environments (`environment.rs`)

`SharedEnvironmentPtr` (`Rc<RefCell<Environment>>`) is modelled as an
address into an explicit environment heap.  The chain walks of `get` and
`assign` carry a fuel bounded by the heap size plus one, which suffices for
every chain the interpreter builds (each environment's parent is allocated
before it); a dangling address yields a `Bug`-kind error that no real
execution produces. -/

/-- Association-list insert mirroring `HashMap::insert`: replaces the
existing binding of the key or appends a new one. -/
def alInsert {α : Type} (k : String) (v : α) :
    List (String × α) → List (String × α)
  | [] => [(k, v)]
  | (k', v') :: rest =>
    if k' = k then (k, v) :: rest else (k', v') :: alInsert k v rest

/-- An environment, from `environment.rs` (`Environment`): bindings plus an
optional enclosing handle. -/
structure Env where
  values : List (String × Object)
  enclosing : Option Nat

abbrev EnvHeap := List Env

namespace Env

/-- `Environment::with`. -/
def with_enclosing (enclosing : Option Nat) : Env := ⟨[], enclosing⟩

/-- `Environment::new`. -/
def new : Env := with_enclosing none

/-- `Environment::define`: unconditional insert/overwrite. -/
def define (e : Env) (name : String) (object : Object) : Env :=
  { e with values := alInsert name object e.values }

end Env

/-- `Environment::define` through a heap handle
(`env.borrow_mut().define(..)`). -/
def heapDefine (heap : EnvHeap) (addr : Nat) (name : String)
    (object : Object) : EnvHeap :=
  match heap.get? addr with
  | none => heap
  | some env => heap.set addr (env.define name object)

/-- `Environment::get`: local lookup, else recurse into the enclosing
environment; `UndefinedVariable` at the root. -/
def envGetFuel (heap : EnvHeap) : Nat → Nat → Token → FoxResult Object
  | 0, _, _ => .error fuelError
  | _ + 1, addr, token =>
    match heap.get? addr with
    | none => .error (FoxError.bug "dangling environment handle")
    | some env =>
      match env.values.lookup token.lexeme with
      | some obj => .ok obj
      | none =>
        match env.enclosing with
        | some enc => envGetFuel heap default enc token
        | none =>
          .error (FoxError.token (.UndefinedVariable token.lexeme)
            (some token))

/-- `Environment::get` with the canonical fuel. -/
def envGet (heap : EnvHeap) (addr : Nat) (token : Token) : FoxResult Object :=
  envGetFuel heap (heap.length + 1) addr token

/-- `Environment::assign`: write locally when the name is bound, else
recurse into the enclosing environment; `UndefinedVariable` at the root. -/
def envAssignFuel (heap : EnvHeap) : Nat → Nat → Token → Object →
    FoxResult EnvHeap
  | 0, _, _, _ => .error fuelError
  | _ + 1, addr, name, value =>
    match heap.get? addr with
    | none => .error (FoxError.bug "dangling environment handle")
    | some env =>
      if (env.values.lookup name.lexeme).isSome then
        .ok (heap.set addr (env.define name.lexeme value))
      else
        match env.enclosing with
        | some enc => envAssignFuel heap default enc name value
        | none =>
          .error (FoxError.token (.UndefinedVariable name.lexeme) (some name))

/-- `Environment::assign` with the canonical fuel. -/
def envAssign (heap : EnvHeap) (addr : Nat) (name : Token) (value : Object) :
    FoxResult EnvHeap :=
  envAssignFuel heap (heap.length + 1) addr name value

/-- The `for _ in 1..depth` pointer walk of
`Environment::traverse_enclosing`. -/
def traverseLoop (heap : EnvHeap) : Option Nat → Nat → FoxResult (Option Nat)
  | ptr, 0 => .ok ptr
  | ptr, steps + 1 =>
    match ptr with
    | none =>
      .error (FoxError.resolver none
        "Invalid depth: Ancestor environment not found")
    | some a =>
      match heap.get? a with
      | none => .error (FoxError.bug "dangling environment handle")
      | some env => traverseLoop heap env.enclosing steps

/-- `Environment::traverse_enclosing`. -/
def traverse_enclosing (heap : EnvHeap) (addr : Nat) (depth : Nat) :
    FoxResult Nat :=
  if depth = 0 then
    .error (FoxError.resolver none
      "Zero depth isn't applicable for ancestor environments")
  else
    match heap.get? addr with
    | none => .error (FoxError.bug "dangling environment handle")
    | some env =>
      match traverseLoop heap env.enclosing (depth - 1) with
      | .error e => .error e
      | .ok none =>
        .error (FoxError.resolver none
          "Invalid depth: Environment at specified distance not found")
      | .ok (some a) => .ok a

/-- `Environment::get_at`. -/
def envGetAt (heap : EnvHeap) (addr : Nat) (distance : Nat) (name : String) :
    FoxResult Object :=
  match heap.get? addr with
  | none => .error (FoxError.bug "dangling environment handle")
  | some env =>
    if distance = 0 then
      match env.values.lookup name with
      | some obj => .ok obj
      | none => .error (FoxError.resolver none "Object not found")
    else
      match traverse_enclosing heap addr distance with
      | .error e => .error e
      | .ok a =>
        match heap.get? a with
        | none => .error (FoxError.bug "dangling environment handle")
        | some env2 =>
          match env2.values.lookup name with
          | some obj => .ok obj
          | none => .error (FoxError.resolver none "Object not found")

/-- `Environment::assign_at`: unconditional insert at the environment
`distance` hops away. -/
def envAssignAt (heap : EnvHeap) (addr : Nat) (distance : Nat) (name : Token)
    (value : Object) : FoxResult EnvHeap :=
  if distance = 0 then
    match heap.get? addr with
    | none => .error (FoxError.bug "dangling environment handle")
    | some env => .ok (heap.set addr (env.define name.lexeme value))
  else
    match traverse_enclosing heap addr distance with
    | .error e => .error e
    | .ok a =>
      match heap.get? a with
      | none => .error (FoxError.bug "dangling environment handle")
      | some env2 => .ok (heap.set a (env2.define name.lexeme value))

/-! ## Objects, callables and classes (`object.rs`, `func.rs`, `class.rs`) -/

def Func.decl : Func → FunctionStmt
  | .mk d _ _ => d

def Func.closure : Func → Nat
  | .mk _ c _ => c

def Func.isInitializer : Func → Bool
  | .mk _ _ i => i

def FunctionStmt.name : FunctionStmt → Token
  | .mk n _ _ => n

def FunctionStmt.params : FunctionStmt → List Token
  | .mk _ p _ => p

def FunctionStmt.body : FunctionStmt → List Statement
  | .mk _ _ b => b

/-- `Func::arity`. -/
def Func.arity (f : Func) : Nat := f.decl.params.length

/-- `Func::bind`: a copy of the callable whose closure is a fresh
environment child of the current closure with `this` defined at depth 0 to
the instance; the fresh environment is allocated on the heap. -/
def Func.bindH (f : Func) (heap : EnvHeap) (instAddr : Nat) :
    Func × EnvHeap :=
  let env := (Env.with_enclosing (some f.closure)).define KEYWORD_THIS
    (Object.inst instAddr)
  (Func.mk f.decl heap.length f.isInitializer, heap ++ [env])

def MetaClass.name : MetaClass → String
  | .mk n _ _ => n

def MetaClass.superclass : MetaClass → Option MetaClass
  | .mk _ s _ => s

def MetaClass.methods : MetaClass → List (String × Func)
  | .mk _ _ m => m

/-- Modelled from the spec: `MetaClass::find_method` with superclass
recursion (spec §4.7: "first looks in the local methods; on miss, recurses
into the superclass; returns absent when exhausted").  The `class.rs` under
`src/` is an older snapshot whose `find_method` has no superclass to
recurse into, but `interpreter.rs` requires the superclass-aware version
(`visit_super` resolves methods through it).  The match on the optional
superclass is lifted into the patterns so the recursion is structural; the
local-lookup-first order is unchanged. -/
def MetaClass.find_method : MetaClass → String → Option Func
  | .mk _ none methods, name =>
    (match methods.lookup name with
     | some f => some f
     | none => none)
  | .mk _ (some s) methods, name =>
    (match methods.lookup name with
     | some f => some f
     | none => s.find_method name)

/-- `MetaClass::arity`: the arity of `init` when found, else 0. -/
def MetaClass.arity (m : MetaClass) : Nat :=
  match m.find_method INITIALIZER_NAME with
  | none => 0
  | some method => method.arity

/-- A class instance, from `class.rs` (`ClassInstance`). -/
structure ClassInstance where
  meta_class_ref : MetaClass
  fields : List (String × Object)

/-- `ClassInstance::new`. -/
def ClassInstance.new (meta_class_ref : MetaClass) : ClassInstance :=
  ⟨meta_class_ref, []⟩

/-- `ClassInstance::set`: unconditional field insert. -/
def ClassInstance.set (inst : ClassInstance) (name : Token)
    (value : Object) : ClassInstance :=
  { inst with fields := alInsert name.lexeme value inst.fields }

/-- `Object::is_true`: `nil` and `false` are falsy, all else truthy. -/
def Object.is_true : Object → Bool
  | .nil => false
  | .bool value => value
  | _ => true

/-- The `PartialEq for Func` implementation of `func.rs`: structural
equality of the declaration, pointer equality of the closure (address
equality here), and equal flags. -/
def funcPartialEq (l r : Func) : Bool :=
  l.decl == r.decl && l.closure == r.closure &&
    l.isInitializer == r.isInitializer

/-- The `PartialEq for Object` implementation of `object.rs`: structural
for nil/number/string/bool, identity-flavoured for user callables, and
`false` for every other pairing — including two classes or two instances. -/
def objectEq (l r : Object) : Bool :=
  match l, r with
  | .nil, .nil => true
  | .double a, .double b => a == b
  | .text a, .text b => a == b
  | .bool a, .bool b => a == b
  | .callee a, .callee b => funcPartialEq a b
  | _, _ => false

/-- Modelled from the spec: `Expression::as_variable` (used by
`interpreter.rs` and `resolver.rs`, absent from the `ast.rs` under
`src/`): the variable payload, or a `Bug` error. -/
def Expression.as_variable : Expression → FoxResult Token
  | .variable name => .ok name
  | _ => .error (FoxError.bug "Expected variable expression")

/-- Modelled from the spec: `Statement::as_function` (used by
`interpreter.rs` and `resolver.rs`, absent from the `ast.rs` under
`src/`): the function payload, or a `Bug` error. -/
def Statement.as_function : Statement → FoxResult FunctionStmt
  | .function f => .ok f
  | _ => .error (FoxError.bug "Expected function statement")

/-- Modelled from the spec: the arithmetic and comparison methods of
`Object` (`minus`, `divide`, `multiply`, `plus`, `greater`,
`greater_equal`, `less`, `less_equal`) invoked by
`Interpreter::visit_binary` are repository code absent from `src/`.  Their
signature is fixed by the caller: `Result<Object, String>`.  Per the spec
(§4.5), `- / *` and the comparisons require two numbers and `+` also
accepts two strings (concatenation, left then right); a type mismatch is an
error, whose message is taken from the spec's kind text "Operand must be a
number". -/
def Object.minus : Object → Object → Except String Object
  | .double l, .double r => .ok (.double (l - r))
  | _, _ => .error "Operand must be a number"

def Object.divide : Object → Object → Except String Object
  | .double l, .double r => .ok (.double (l / r))
  | _, _ => .error "Operand must be a number"

def Object.multiply : Object → Object → Except String Object
  | .double l, .double r => .ok (.double (l * r))
  | _, _ => .error "Operand must be a number"

def Object.plus : Object → Object → Except String Object
  | .double l, .double r => .ok (.double (l + r))
  | .text l, .text r => .ok (.text (l ++ r))
  | _, _ => .error "Operand must be a number"

def Object.greater : Object → Object → Except String Object
  | .double l, .double r => .ok (.bool (decide (l > r)))
  | _, _ => .error "Operand must be a number"

def Object.greater_equal : Object → Object → Except String Object
  | .double l, .double r => .ok (.bool (decide (l ≥ r)))
  | _, _ => .error "Operand must be a number"

def Object.less : Object → Object → Except String Object
  | .double l, .double r => .ok (.bool (decide (l < r)))
  | _, _ => .error "Operand must be a number"

def Object.less_equal : Object → Object → Except String Object
  | .double l, .double r => .ok (.bool (decide (l ≤ r)))
  | _, _ => .error "Operand must be a number"

/-! ## Evaluator (`interpreter.rs`)

The interpreter state carries the environment heap, the instance heap, the
current and global environment handles, the resolver side table and the
lines printed so far.  Statement execution and expression evaluation are
embedded as fuel-indexed functions returning the updated state together
with an `Except` result (Rust mutates `self` and returns `FoxResult`);
running out of fuel yields the `Bug`-kind fuel marker, which no finite
execution of the Rust interpreter produces. -/

/-- Modelled from the spec: invoking a builtin's opaque host body
(`(func.body)(&args)`).  The only builtin is `clock`, whose value is the
wall-clock time — not a function of the interpreter state — so the model
returns `nil`; no verified claim inspects a builtin's return value. -/
def builtinApply (bodyId : Nat) (args : List Object) : Object := Object.nil

/-- The interpreter, from `interpreter.rs` (`Interpreter`), plus the two
heaps backing its `Rc<RefCell<..>>` handles and the captured stdout. -/
structure Interp where
  envs : EnvHeap
  instances : List ClassInstance
  environment : Nat
  globals : Nat
  locals : List (Expression × Nat)
  output : List String

namespace Interp

/-- `Interpreter::new`: a fresh global environment seeded with the `clock`
builtin (body id 0, arity 0). -/
def new : Interp :=
  { envs := [⟨[("clock", Object.builtinCallee ⟨0, 0⟩)], none⟩]
    instances := []
    environment := 0
    globals := 0
    locals := []
    output := [] }

/-- `Interpreter::resolve`. -/
def resolve (σ : Interp) (expr : Expression) (depth : Nat) : Interp :=
  { σ with locals := alEInsert expr depth σ.locals }
where
  /-- `HashMap::insert` keyed by expressions. -/
  alEInsert (k : Expression) (v : Nat) :
      List (Expression × Nat) → List (Expression × Nat)
  | [] => [(k, v)]
  | (k', v') :: rest =>
    if k' == k then (k, v) :: rest else (k', v') :: alEInsert k v rest

/-- `Interpreter::look_up_variable`. -/
def look_up_variable (σ : Interp) (name : Token) (expr : Expression) :
    FoxResult Object :=
  match σ.locals.lookup expr with
  | some distance => envGetAt σ.envs σ.environment distance name.lexeme
  | none => envGet σ.envs σ.globals name

/-- `Interpreter::func_arity_check`. -/
def func_arity_check (token : Token) (arity : Nat) (args : List Object) :
    FoxResult Unit :=
  if args.length ≠ arity then
    .error (FoxError.runtime (some token)
      ("Expected " ++ toString arity ++ "  arguments but got " ++
        toString args.length))
  else .ok ()

/-- The parameter-binding `zip().for_each(define)` of
`Interpreter::func_execute`. -/
def bind_params (env : Env) (params : List Token) (args : List Object) :
    Env :=
  (params.zip args).foldl (fun e pa => e.define pa.1.lexeme pa.2) env

/-- The method-map construction loop of `Interpreter::visit_class`. -/
def build_methods (closure : Nat) :
    List Statement → List (String × Func) →
      FoxResult (List (String × Func))
  | [], acc => .ok acc
  | stmt :: rest, acc =>
    match stmt.as_function with
    | .error e => .error e
    | .ok func =>
      build_methods closure rest
        (alInsert func.name.lexeme
          (Func.mk func closure (func.name.lexeme == INITIALIZER_NAME)) acc)

/-- The `Display` rendering of `Object` used by `print`
(`object.rs`); the number rendering is the embedding's rendering of ℚ. -/
def displayObject (σ : Interp) (o : Object) : String :=
  match o with
  | .nil => "nil"
  | .double value => toString value
  | .text value => value
  | .bool value => if value then "true" else "false"
  | .builtinCallee f => "<builtin fun (" ++ toString f.arity ++ " args)>"
  | .callee f =>
    "<" ++ (if f.isInitializer then "init" else "fun") ++ " (" ++
      toString f.arity ++ " args)>"
  | .cls m => "class meta class " ++ m.name
  | .inst addr =>
    match σ.instances.get? addr with
    | none => "instance of class '?'"
    | some inst => "instance of class '" ++ inst.meta_class_ref.name ++ "'"

/-- `ClassInstance::get`: field lookup first, then a bound method from the
metaclass chain (the binding allocates a fresh environment). -/
def instance_get (σ : Interp) (addr : Nat) (name : Token) :
    Interp × Except FoxError Object :=
  match σ.instances.get? addr with
  | none => (σ, .error (FoxError.bug "dangling instance handle"))
  | some inst =>
    match inst.fields.lookup name.lexeme with
    | some obj => (σ, .ok obj)
    | none =>
      match inst.meta_class_ref.find_method name.lexeme with
      | some method =>
        let bound := method.bindH σ.envs addr
        ({ σ with envs := bound.2 }, .ok (.callee bound.1))
      | none =>
        (σ, .error (FoxError.runtime (some name)
          ("Undefined property '" ++ name.lexeme ++ "'")))

mutual

/-- `Interpreter::execute` / the `StatementVisitor` impl. -/
def execute (fuel : Nat) (σ : Interp) (stmt : Statement) :
    Interp × Except FoxError Unit :=
  match fuel with
  | 0 => (σ, .error fuelError)
  | fuel + 1 =>
    match stmt with
    | .expression expr =>
      -- visit_expression
      match evaluate fuel σ expr with
      | (σ1, .error e) => (σ1, .error e)
      | (σ1, .ok _) => (σ1, .ok ())
    | .print expr =>
      -- visit_print
      match evaluate fuel σ expr with
      | (σ1, .error e) => (σ1, .error e)
      | (σ1, .ok value) =>
        ({ σ1 with output := σ1.output ++ [σ1.displayObject value] }, .ok ())
    | .var name initializer =>
      -- visit_var
      match
        (match initializer with
         | some init => evaluate fuel σ init
         | none => (σ, .ok Object.nil)) with
      | (σ1, .error e) => (σ1, .error e)
      | (σ1, .ok value) =>
        ({ σ1 with
            envs := heapDefine σ1.envs σ1.environment name.lexeme value },
          .ok ())
    | .block statements =>
      -- visit_block
      execute_block fuel σ statements
        (Env.with_enclosing (some σ.environment))
    | .ifStmt condition then_branch else_branch =>
      -- visit_if
      match evaluate fuel σ condition with
      | (σ1, .error e) => (σ1, .error e)
      | (σ1, .ok v) =>
        if v.is_true then execute fuel σ1 then_branch
        else
          match else_branch with
          | some els => execute fuel σ1 els
          | none => (σ1, .ok ())
    | .whileStmt condition body =>
      -- visit_while
      whileLoop fuel σ condition body
    | .function f =>
      -- visit_function
      let object := Func.mk f σ.environment false
      ({ σ with
          envs := heapDefine σ.envs σ.environment f.name.lexeme
            (.callee object) },
        .ok ())
    | .ret _ value =>
      -- visit_return: raise the Return control-flow signal
      match
        (match value with
         | some val => evaluate fuel σ val
         | none => (σ, .ok Object.nil)) with
      | (σ1, .error e) => (σ1, .error e)
      | (σ1, .ok v) => (σ1, .error (FoxError.error (.Return v)))
    | .classStmt name superclassExpr methods =>
      -- visit_class
      match
        (match superclassExpr with
         | some expr =>
           (match evaluate fuel σ expr with
            | (σ1, .error e) => (σ1, .error e)
            | (σ1, .ok eval) =>
              match eval with
              | .cls val => (σ1, .ok (some val))
              | _ =>
                match expr.as_variable with
                | .error e => (σ1, .error e)
                | .ok token =>
                  (σ1, .error (FoxError.runtime (some token)
                    "Superclass must be a class")))
         | none => (σ, .ok none) :
          Interp × Except FoxError (Option MetaClass)) with
      | (σ1, .error e) => (σ1, .error e)
      | (σ1, .ok superclass) =>
        let σ2 := { σ1 with
          envs := heapDefine σ1.envs σ1.environment name.lexeme Object.nil }
        let enclosing := σ2.environment
        let σ3 :=
          match superclass with
          | some obj =>
            { σ2 with
                envs := σ2.envs ++
                  [(Env.with_enclosing (some enclosing)).define KEYWORD_SUPER
                    (Object.cls obj)]
                environment := σ2.envs.length }
          | none => σ2
        match build_methods σ3.environment methods [] with
        | .error e => (σ3, .error e)
        | .ok methodMap =>
          let class_data := MetaClass.mk name.lexeme superclass methodMap
          let σ4 :=
            if superclassExpr.isSome then { σ3 with environment := enclosing }
            else σ3
          match envAssign σ4.envs σ4.environment name (.cls class_data) with
          | .error e => (σ4, .error e)
          | .ok envs1 => ({ σ4 with envs := envs1 }, .ok ())
termination_by structural fuel

/-- The `while` of `Interpreter::visit_while`. -/
def whileLoop (fuel : Nat) (σ : Interp) (condition : Expression)
    (body : Statement) : Interp × Except FoxError Unit :=
  match fuel with
  | 0 => (σ, .error fuelError)
  | fuel + 1 =>
    match evaluate fuel σ condition with
    | (σ1, .error e) => (σ1, .error e)
    | (σ1, .ok v) =>
      if v.is_true then
        match execute fuel σ1 body with
        | (σ2, .error e) => (σ2, .error e)
        | (σ2, .ok _) => whileLoop fuel σ2 condition body
      else (σ1, .ok ())
termination_by structural fuel

/-- The statement loop of `Interpreter::execute_block`: run until the
first error ("emulate the throw behavior"). -/
def executeBlockLoop (fuel : Nat) (σ : Interp) :
    List Statement → Interp × Except FoxError Unit
  | [] => (σ, .ok ())
  | stmt :: rest =>
    match fuel with
    | 0 => (σ, .error fuelError)
    | fuel + 1 =>
      match execute fuel σ stmt with
      | (σ1, .error e) => (σ1, .error e)
      | (σ1, .ok _) => executeBlockLoop fuel σ1 rest
termination_by structural fuel

/-- `Interpreter::execute_block`: save the current environment handle,
allocate the new scope, run the statements, and restore the handle on
every exit path. -/
def execute_block (fuel : Nat) (σ : Interp) (statements : List Statement)
    (env : Env) : Interp × Except FoxError Unit :=
  match fuel with
  | 0 => (σ, .error fuelError)
  | fuel + 1 =>
    let prev := σ.environment
    let σ1 :=
      { σ with envs := σ.envs ++ [env], environment := σ.envs.length }
    match executeBlockLoop fuel σ1 statements with
    | (σ2, result) => ({ σ2 with environment := prev }, result)
termination_by structural fuel

/-- `Interpreter::func_execute`. -/
def func_execute (fuel : Nat) (σ : Interp) (func : Func)
    (args : List Object) : Interp × Except FoxError Object :=
  match fuel with
  | 0 => (σ, .error fuelError)
  | fuel + 1 =>
    let env := bind_params (Env.with_enclosing (some func.closure))
      func.decl.params args
    match execute_block fuel σ func.decl.body env with
    | (σ1, .error err) =>
      match err.kind, func.isInitializer with
      | .Return _, true =>
        (σ1, envGetAt σ1.envs func.closure 0 KEYWORD_THIS)
      | .Return value, false => (σ1, .ok value)
      | _, _ => (σ1, .error err)
    | (σ1, .ok _) =>
      if func.isInitializer then
        (σ1, envGetAt σ1.envs func.closure 0 KEYWORD_THIS)
      else (σ1, .ok Object.nil)
termination_by structural fuel

/-- The left-to-right argument evaluation of `Interpreter::visit_call`. -/
def evalArgs (fuel : Nat) (σ : Interp) :
    List Expression → Interp × Except FoxError (List Object)
  | [] => (σ, .ok [])
  | arg :: rest =>
    match fuel with
    | 0 => (σ, .error fuelError)
    | fuel + 1 =>
      match evaluate fuel σ arg with
      | (σ1, .error e) => (σ1, .error e)
      | (σ1, .ok v) =>
        match evalArgs fuel σ1 rest with
        | (σ2, .error e) => (σ2, .error e)
        | (σ2, .ok vs) => (σ2, .ok (v :: vs))
termination_by structural fuel

/-- `Interpreter::evaluate` / the `ExpressionVisitor` impl. -/
def evaluate (fuel : Nat) (σ : Interp) (expr : Expression) :
    Interp × Except FoxError Object :=
  match fuel with
  | 0 => (σ, .error fuelError)
  | fuel + 1 =>
    match expr with
    | .binary left operator right =>
      -- visit_binary
      match evaluate fuel σ left with
      | (σ1, .error e) => (σ1, .error e)
      | (σ1, .ok l) =>
        match evaluate fuel σ1 right with
        | (σ2, .error e) => (σ2, .error e)
        | (σ2, .ok r) =>
          let result : Except String Object :=
            match operator.token_type with
            | .Minus => l.minus r
            | .Slash => l.divide r
            | .Star => l.multiply r
            | .Plus => l.plus r
            | .Greater => l.greater r
            | .GreaterEqual => l.greater_equal r
            | .Less => l.less r
            | .LessEqual => l.less_equal r
            | .BangEqual => .ok (.bool (!objectEq l r))
            | .EqualEqual => .ok (.bool (objectEq l r))
            | _ => .error "Type mismatch"
          match result with
          | .ok v => (σ2, .ok v)
          | .error err =>
            (σ2, .error (FoxError.runtime (some operator) err))
    | .grouping inner =>
      -- visit_grouping
      evaluate fuel σ inner
    | .literal value =>
      -- visit_literal
      (σ, .ok value)
    | .unary inner operator =>
      -- visit_unary
      match evaluate fuel σ inner with
      | (σ1, .error e) => (σ1, .error e)
      | (σ1, .ok right) =>
        match operator.token_type, right with
        | .Minus, .double value => (σ1, .ok (.double (-value)))
        | .Minus, _ =>
          (σ1, .error (FoxError.token .OperandMustBeNumber (some operator)))
        | .Bang, r => (σ1, .ok (.bool (!r.is_true)))
        | _, _ =>
          -- the Rust arm is `unreachable!()` (a panic)
          (σ1, .error (FoxError.bug "unreachable unary operator"))
    | .variable name =>
      -- visit_variable
      (σ, σ.look_up_variable name (.variable name))
    | .assign name value =>
      -- visit_assign
      match evaluate fuel σ value with
      | (σ1, .error e) => (σ1, .error e)
      | (σ1, .ok v) =>
        match σ1.locals.lookup (Expression.assign name value) with
        | some distance =>
          match envAssignAt σ1.envs σ1.environment distance name v with
          | .error e => (σ1, .error e)
          | .ok envs1 => ({ σ1 with envs := envs1 }, .ok v)
        | none =>
          match envAssign σ1.envs σ1.globals name v with
          | .error e => (σ1, .error e)
          | .ok envs1 => ({ σ1 with envs := envs1 }, .ok v)
    | .logical left operator right =>
      -- visit_logical
      match evaluate fuel σ left with
      | (σ1, .error e) => (σ1, .error e)
      | (σ1, .ok l) =>
        match operator.token_type with
        | .Or => if l.is_true then (σ1, .ok l) else evaluate fuel σ1 right
        | .And => if !l.is_true then (σ1, .ok l) else evaluate fuel σ1 right
        | _ => evaluate fuel σ1 right
    | .call callee paren arguments =>
      -- visit_call
      match evaluate fuel σ callee with
      | (σ1, .error e) => (σ1, .error e)
      | (σ1, .ok eval) =>
        match evalArgs fuel σ1 arguments with
        | (σ2, .error e) => (σ2, .error e)
        | (σ2, .ok args) =>
          match eval with
          | .builtinCallee func =>
            match func_arity_check paren func.arity args with
            | .error e => (σ2, .error e)
            | .ok _ => (σ2, .ok (builtinApply func.bodyId args))
          | .callee func =>
            match func_arity_check paren func.arity args with
            | .error e => (σ2, .error e)
            | .ok _ => func_execute fuel σ2 func args
          | .cls meta =>
            match func_arity_check paren meta.arity args with
            | .error e => (σ2, .error e)
            | .ok _ =>
              -- MetaClass::constructor: fresh instance + bound `init`
              let instAddr := σ2.instances.length
              let σ3 := { σ2 with
                instances := σ2.instances ++ [ClassInstance.new meta] }
              match meta.find_method INITIALIZER_NAME with
              | some init =>
                let bound := init.bindH σ3.envs instAddr
                let σ4 := { σ3 with envs := bound.2 }
                match func_execute fuel σ4 bound.1 args with
                | (σ5, .error e) => (σ5, .error e)
                | (σ5, .ok _) => (σ5, .ok (.inst instAddr))
              | none => (σ3, .ok (.inst instAddr))
          | _ =>
            (σ2, .error (FoxError.runtime (some paren)
              "Can only call functions and classes"))
    | .get object name =>
      -- visit_get
      match evaluate fuel σ object with
      | (σ1, .error e) => (σ1, .error e)
      | (σ1, .ok obj) =>
        match obj with
        | .inst addr => σ1.instance_get addr name
        | _ =>
          (σ1, .error (FoxError.runtime (some name)
            "Only instances have properties"))
    | .set object name value =>
      -- visit_set
      match evaluate fuel σ object with
      | (σ1, .error e) => (σ1, .error e)
      | (σ1, .ok obj) =>
        match obj with
        | .inst addr =>
          match evaluate fuel σ1 value with
          | (σ2, .error e) => (σ2, .error e)
          | (σ2, .ok v) =>
            match σ2.instances.get? addr with
            | none => (σ2, .error (FoxError.bug "dangling instance handle"))
            | some inst =>
              ({ σ2 with
                  instances := σ2.instances.set addr (inst.set name v) },
                .ok v)
        | _ =>
          (σ1, .error (FoxError.runtime (some name)
            "Only instances have fields"))
    | .thisEx keyword =>
      -- visit_this
      (σ, σ.look_up_variable keyword (.thisEx keyword))
    | .superEx keyword method =>
      -- visit_super.  `distance - 1` mirrors the Rust `distance - 1` on
      -- usize; the resolver never records distance 0 for `super`.
      match σ.locals.lookup (Expression.superEx keyword method) with
      | none => (σ, .error (FoxError.bug "Distance for super must be set"))
      | some distance =>
        match envGetAt σ.envs σ.environment distance KEYWORD_SUPER with
        | .error e => (σ, .error e)
        | .ok superObj =>
          match superObj with
          | .cls superclass =>
            match envGetAt σ.envs σ.environment (distance - 1)
                KEYWORD_THIS with
            | .error e => (σ, .error e)
            | .ok thisObj =>
              match thisObj with
              | .inst addr =>
                match superclass.find_method method.lexeme with
                | none =>
                  (σ, .error (FoxError.runtime (some method)
                    ("Undefined property '" ++ method.lexeme ++ "'")))
                | some m =>
                  let bound := m.bindH σ.envs addr
                  ({ σ with envs := bound.2 }, .ok (.callee bound.1))
              | _ =>
                (σ, .error (FoxError.bug
                  ("Expected class instance, found " ++ σ.displayObject
                    thisObj)))
          | _ =>
            (σ, .error (FoxError.bug
              ("Expected MetaClass, found " ++ σ.displayObject superObj)))
termination_by structural fuel

end

/-- The `for statement in statements` loop of `Interpreter::interpret`
(fails fast on the first error). -/
def interpretLoop (fuel : Nat) (σ : Interp) :
    List Statement → Interp × Except FoxError Unit
  | [] => (σ, .ok ())
  | stmt :: rest =>
    match execute fuel σ stmt with
    | (σ1, .error e) => (σ1, .error e)
    | (σ1, .ok _) => interpretLoop fuel σ1 rest

/-- `Interpreter::interpret`. -/
def interpret (fuel : Nat) (σ : Interp) (statements : List Statement) :
    Interp × Except FoxError Unit :=
  interpretLoop fuel σ statements

end Interp

/-! ## The inheritance chain (specification-side view for claim C2) -/

/-- The inheritance chain of a metaclass: itself, then its superclass's
chain. -/
def MetaClass.chain : MetaClass → List MetaClass
  | .mk n none ms => [.mk n none ms]
  | .mk n (some s) ms => .mk n (some s) ms :: s.chain

theorem find_method_chain : ∀ (m : MetaClass) (name : String),
    m.find_method name =
      m.chain.findSome? (fun c => c.methods.lookup name) := by
  intro m name
  induction m, name using MetaClass.find_method.induct with
  | case1 nm methods name f hf =>
    rw [MetaClass.find_method, MetaClass.chain, List.findSome?_cons]
    simp only [MetaClass.methods, hf]
  | case2 nm methods name hf =>
    rw [MetaClass.find_method, MetaClass.chain, List.findSome?_cons]
    simp only [MetaClass.methods, hf]
    rfl
  | case3 nm s methods name f hf =>
    rw [MetaClass.find_method, MetaClass.chain, List.findSome?_cons]
    simp only [MetaClass.methods, hf]
  | case4 nm s methods name hf ih =>
    rw [MetaClass.find_method, MetaClass.chain, List.findSome?_cons]
    simp only [MetaClass.methods, hf]
    exact ih



/-! ## Concrete programs used by the claim theorems -/

/-- A token with empty lexeme, nil literal and default location. -/
def tok (tt : TokenType) : Token := Token.mk tt "" Object.nil ⟨1, 0⟩

/-- A number token with literal value `q`. -/
def numTok (q : ℚ) : Token := Token.mk .Number "" (Object.double q) ⟨1, 0⟩

/-- The token sequence of `for(;;) print 1;`. -/
def forNoCondToks : List Token :=
  [tok .For, tok .LeftParenthesis, tok .Semicolon, tok .Semicolon,
    tok .RightParenthesis, tok .Print, numTok 1, tok .Semicolon, tok .Eof]

/-- The token sequence of `for (var i = 0; true; 1) print 2;`. -/
def forFullToks : List Token :=
  [tok .For, tok .LeftParenthesis, tok .Var,
    Token.mk .Identifier "i" Object.nil ⟨1, 0⟩, tok .Equal, numTok 0,
    tok .Semicolon, tok .True, tok .Semicolon, numTok 1,
    tok .RightParenthesis, tok .Print, numTok 2, tok .Semicolon, tok .Eof]

/-- The token sequence of a call `f(1, 1, ..., 1);` with 256 arguments. -/
def overflowCallToks : List Token :=
  [Token.mk .Identifier "f" Object.nil ⟨1, 0⟩, tok .LeftParenthesis] ++
    (List.replicate 255 [numTok 1, tok .Comma]).join ++
    [numTok 1, tok .RightParenthesis, tok .Semicolon, tok .Eof]

/-- An argumentless `init` method declaration with an empty body. -/
def initDecl : FunctionStmt :=
  .mk (Token.mk .Identifier "init" Object.nil ⟨1, 0⟩) [] []

/-- An argumentless `init` whose body is a bare `return;`. -/
def initRetDecl : FunctionStmt :=
  .mk (Token.mk .Identifier "init" Object.nil ⟨1, 0⟩) []
    [.ret (tok .Return) none]

/-- An interpreter state whose environment 0 binds `this` to instance 0
(the shape `Func::bind` produces for a method closure). -/
def initState : Interp :=
  { envs := [⟨[(KEYWORD_THIS, Object.inst 0)], none⟩]
    instances := [ClassInstance.new (MetaClass.mk "A" none [])]
    environment := 0
    globals := 0
    locals := []
    output := [] }

/-! ## The claims -/

/-- C2: for every metaclass and method name, `find_method` returns the
method of the first class along the inheritance chain (the metaclass
itself, then its superclasses) whose own method map binds the name, and
returns absent exactly when no class in the chain binds it. -/
theorem c2_find_method_chain_lookup (m : MetaClass) (name : String) :
    m.find_method name =
      m.chain.findSome? (fun c => c.methods.lookup name) ∧
    (m.find_method name = none ↔
      ∀ c ∈ m.chain, c.methods.lookup name = none) := by
  refine ⟨find_method_chain m name, ?_⟩
  rw [find_method_chain, List.findSome?_eq_none_iff]

/-- C4: executing a `Block` statement leaves the evaluator's
current-environment handle equal to the handle saved before the block, on
the success path and on every error exit path (including `Return` signals
and fuel exhaustion); likewise for the underlying `execute_block`. -/
theorem c4_block_restores_environment :
    (∀ (fuel : Nat) (σ : Interp) (statements : List Statement) (env : Env),
      ((Interp.execute_block fuel σ statements env).1).environment =
        σ.environment) ∧
    (∀ (fuel : Nat) (σ : Interp) (statements : List Statement),
      ((Interp.execute fuel σ (.block statements)).1).environment =
        σ.environment) := by
  constructor
  · intro fuel σ statements env
    match fuel with
    | 0 => rfl
    | fuel + 1 => rfl
  · intro fuel σ statements
    match fuel with
    | 0 => rfl
    | fuel + 1 =>
      show ((Interp.execute_block fuel σ statements
        (Env.with_enclosing (some σ.environment))).1).environment = _
      match fuel with
      | 0 => rfl
      | fuel + 1 => rfl

/-- C10: `scan_tokens` terminates (it is a total function of the source,
by the strictly increasing cursor argument of its termination proof), and
whenever it succeeds the returned token list ends with exactly one
end-of-input token: an `Eof`-typed token closes the list and no earlier
token is `Eof`-typed. -/
theorem c10_scan_tokens_single_trailing_eof (s : Scanner)
    (toks : List Token) (h : s.scan_tokens = .ok toks) :
    ∃ pre t, toks = pre ++ [t] ∧ t.token_type = .Eof ∧
      ∀ x ∈ pre, x.token_type ≠ .Eof := by
  obtain ⟨pre, t, heq, h1, h2⟩ := Scanner.scan_tokens_aux_eof s [] toks h
  exact ⟨pre, t, by simpa using heq, h1, h2⟩

theorem c10_witness :
    ∃ pre t,
      [Token.mk TokenType.LeftParenthesis "" Object.nil ⟨1, 1⟩,
        Token.mk .RightParenthesis "" Object.nil ⟨1, 2⟩,
        Token.mk .Eof "" Object.nil ⟨1, 3⟩] = pre ++ [t] ∧
      t.token_type = .Eof ∧ ∀ x ∈ pre, x.token_type ≠ .Eof :=
  c10_scan_tokens_single_trailing_eof (Scanner.with_source ['(', ')']) _
    (by rw [Scanner.scan_tokens, Scanner.with_source,
          @Scanner.scan_tokens_aux_token ⟨0, 0, 1, ['(', ')']⟩
            ⟨0, 1, 1, ['(', ')']⟩
            (Token.mk .LeftParenthesis "" Object.nil ⟨1, 1⟩) [] rfl,
          if_neg (by decide),
          @Scanner.scan_tokens_aux_token ⟨0, 1, 1, ['(', ')']⟩
            ⟨1, 2, 1, ['(', ')']⟩
            (Token.mk .RightParenthesis "" Object.nil ⟨1, 2⟩) _ rfl,
          if_neg (by decide),
          @Scanner.scan_tokens_aux_token ⟨1, 2, 1, ['(', ')']⟩
            ⟨2, 3, 1, ['(', ')']⟩
            (Token.mk .Eof "" Object.nil ⟨1, 3⟩) _ rfl,
          if_pos (by decide)]
        rfl)

/-- C8 counterexample: a lexeme beginning with `_` does not scan as an
identifier; the scanner fails with `UnexpectedCharacter` on the input
`"_"`. -/
theorem c8_counterexample_underscore :
    Scanner.scan_tokens (Scanner.with_source ['_']) =
      .error (FoxError.code .UnexpectedCharacter ⟨1, 1⟩) := by
  rw [Scanner.scan_tokens, Scanner.with_source,
    @Scanner.scan_tokens_aux_error ⟨0, 0, 1, ['_']⟩
      (FoxError.code .UnexpectedCharacter ⟨1, 1⟩) [] rfl]

theorem c8_witness :
    ('f'.isAlpha = true) ∧
    (Scanner.with_source ['f', 'o', 'r']).peek = some 'f' ∧
    (Scanner.with_source ['f', 'o', 'r']).start =
      (Scanner.with_source ['f', 'o', 'r']).current ∧
    (Scanner.with_source ['f', 'o', 'r']).scan_next =
      .ok (.token (Token.mk .For "" Object.nil ⟨1, 3⟩),
        ⟨0, 3, 1, ['f', 'o', 'r']⟩) :=
  ⟨by decide, rfl, rfl,
    by rw [Scanner.c8_alpha_scans_identifier_maximal_run
          (Scanner.with_source ['f', 'o', 'r']) 'f' (by decide) rfl rfl]
       rfl⟩

/-- C7: the failing evaluation for the lexeme claim.  Scanning `"("`
produces a token whose lexeme field is the empty string — the inverted
guard in `token_with_literal` records `""` whenever `start < current` —
whereas the source substring `[start, current)` of the lexeme span is
`"("`. -/
theorem c7_lexeme_recorded_empty :
    Scanner.scan_tokens (Scanner.with_source ['(']) =
      .ok [Token.mk .LeftParenthesis "" Object.nil ⟨1, 1⟩,
        Token.mk .Eof "" Object.nil ⟨1, 2⟩] ∧
    (Scanner.with_source ['(']).substring 0 1 = "(" ∧
    ("" : String) ≠ "(" := by
  refine ⟨?_, rfl, by decide⟩
  rw [Scanner.scan_tokens, Scanner.with_source,
    @Scanner.scan_tokens_aux_token ⟨0, 0, 1, ['(']⟩ ⟨0, 1, 1, ['(']⟩
      (Token.mk .LeftParenthesis "" Object.nil ⟨1, 1⟩) [] rfl,
    if_neg (by decide),
    @Scanner.scan_tokens_aux_token ⟨0, 1, 1, ['(']⟩ ⟨1, 2, 1, ['(']⟩
      (Token.mk .Eof "" Object.nil ⟨1, 2⟩) _ rfl,
    if_pos (by decide)]
  rfl

/-- C1 (amended): when the condition clause is present, `for (init; cond;
incr) body` parses to the hand-desugared
`{ init; while (cond) { body; incr; } }`; a missing condition produces no
`while` wrapper at all (see the counterexample). -/
theorem c1_for_desugars_when_condition_present (fuel : Nat)
    (p p1 p2 p3 p4 p5 p6 p7 : PState) (tLp tSemi tRp : Token)
    (init : Statement) (cond incr : Expression) (body : Statement)
    (h1 : p.consume_token .LeftParenthesis "Expect '(' after 'for'" =
      .ok (tLp, p1))
    (h2 : PState.for_initializer fuel p1 = .ok (some init, p2))
    (h3 : PState.for_condition fuel p2 = .ok (some cond, p3))
    (h4 : p3.consume_token .Semicolon "Expected ';' after loop condition" =
      .ok (tSemi, p4))
    (h5 : PState.for_increment fuel p4 = .ok (some incr, p5))
    (h6 : p5.consume_token .RightParenthesis
      "Expected ')' after for clauses" = .ok (tRp, p6))
    (h7 : PState.statement fuel p6 = .ok (body, p7)) :
    PState.for_statement (fuel + 1) p =
      .ok (.block [init,
        .whileStmt cond (.block [body, .expression incr])], p7) := by
  simp only [PState.for_statement, h1, h2, h3, h4, h5, h6, h7]
  rfl

theorem c1_witness :
    PState.for_statement 31 ⟨forFullToks, 1⟩ =
      .ok (.block [
        .var (Token.mk .Identifier "i" Object.nil ⟨1, 0⟩)
          (some (.literal (.double 0))),
        .whileStmt (.literal (.bool true))
          (.block [.print (.literal (.double 2)),
            .expression (.literal (.double 1))])],
        ⟨forFullToks, 14⟩) :=
  c1_for_desugars_when_condition_present 30 _ _ _ _ _ _ _ _ _ _ _ _ _ _ _
    rfl rfl rfl rfl rfl rfl rfl

/-- C1 counterexample: `for(;;) print 1;` — the condition is missing — does
not parse to a loop with a literal-`true` condition; it parses to the bare
`print` statement, with no `while` node at all. -/
theorem c1_counterexample_missing_condition :
    PState.parse 99 (PState.new forNoCondToks) =
      .ok [Statement.print (.literal (.double 1))] ∧
    Statement.print (.literal (.double 1)) ≠
      Statement.whileStmt (.literal (.bool true))
        (Statement.print (.literal (.double 1))) := by
  refine ⟨rfl, ?_⟩
  intro h
  cases h

/-- C6 (amended): exceeding the 255 bound on call arguments or function
parameters makes the parser return `Err(TooManyFunctionArguments)`, and a
declaration error propagates out of the parse loop, aborting the parse
(`synchronize` is commented out in the source); no panic is possible (the
embedding is total). -/
theorem c6_overflow_returns_error :
    (∀ (fuel : Nat) (p : PState) (args : List Expression),
      args.length ≥ MAX_FUNCTION_ARGUMENT_COUNT →
      PState.finish_call_args (fuel + 1) p args =
        .error (p.error .TooManyFunctionArguments)) ∧
    (∀ (fuel : Nat) (p : PState) (params : List Token),
      params.length ≥ MAX_FUNCTION_ARGUMENT_COUNT →
      PState.function_params (fuel + 1) p params =
        .error (p.error .TooManyFunctionArguments)) ∧
    (∀ (fuel : Nat) (p : PState) (acc : List Statement) (e : FoxError),
      p.is_at_end = false →
      PState.declaration fuel p = .error e →
      PState.parseLoop (fuel + 1) p acc = .error e) := by
  refine ⟨?_, ?_, ?_⟩
  · intro fuel p args h
    rw [PState.finish_call_args, if_pos h]
  · intro fuel p params h
    rw [PState.function_params, if_pos h]
  · intro fuel p acc e hend hdecl
    rw [PState.parseLoop, if_neg (by simp [hend]), hdecl]

theorem c6_witness :
    PState.finish_call_args 1 (PState.new [])
      (List.replicate 255 (.literal .nil)) =
      .error ((PState.new []).error .TooManyFunctionArguments) :=
  c6_overflow_returns_error.1 0 (PState.new [])
    (List.replicate 255 (.literal .nil))
    (by rw [List.length_replicate]; exact Nat.le_refl _)

set_option maxRecDepth 10000 in
/-- C6 counterexample: parsing `f(1, 1, ..., 1);` with 256 arguments does
not proceed past the overflow — the parse as a whole aborts with the
`TooManyFunctionArguments` error. -/
theorem c6_counterexample_overflow_aborts_parse :
    PState.parse 999 (PState.new overflowCallToks) =
      .error (FoxError.token .TooManyFunctionArguments (some (tok .Comma))) := by
  rfl

/-- Both operands are numbers. -/
def bothNumbers : Object → Object → Bool
  | .double _, .double _ => true
  | _, _ => false

/-- Both operands are strings. -/
def bothStrings : Object → Object → Bool
  | .text _, .text _ => true
  | _, _ => false

theorem object_arith_mismatch {l r : Object} (h : bothNumbers l r = false) :
    l.minus r = .error "Operand must be a number" ∧
    l.divide r = .error "Operand must be a number" ∧
    l.multiply r = .error "Operand must be a number" ∧
    l.greater r = .error "Operand must be a number" ∧
    l.greater_equal r = .error "Operand must be a number" ∧
    l.less r = .error "Operand must be a number" ∧
    l.less_equal r = .error "Operand must be a number" := by
  cases l <;> cases r <;>
    simp_all [bothNumbers, Object.minus, Object.divide, Object.multiply,
      Object.greater, Object.greater_equal, Object.less, Object.less_equal]

theorem object_plus_mismatch {l r : Object} (h1 : bothNumbers l r = false)
    (h2 : bothStrings l r = false) :
    l.plus r = .error "Operand must be a number" := by
  cases l <;> cases r <;> simp_all [bothNumbers, bothStrings, Object.plus]

/-- C5 (amended): a binary `- / * +` or comparison whose operands have the
wrong types — not two numbers, and for `+` neither two numbers nor two
strings — fails with an error of kind `Runtime` carrying the operand
method's message (`visit_binary` wraps the `Result<_, String>` error with
`FoxError::runtime`), not with kind `OperandMustBeNumber`. -/
theorem c5_binary_mismatch_runtime_error (fuel : Nat) (σ : Interp)
    (l r : Object) (op : Token)
    (hop : op.token_type ∈ ([.Minus, .Slash, .Star, .Plus, .Greater,
      .GreaterEqual, .Less, .LessEqual] : List TokenType))
    (hnum : bothNumbers l r = false)
    (hstr : op.token_type = .Plus → bothStrings l r = false) :
    (Interp.evaluate (fuel + 2) σ
        (.binary (.literal l) op (.literal r))).2 =
      .error (FoxError.runtime (some op) "Operand must be a number") ∧
    (FoxError.runtime (some op) "Operand must be a number").kind ≠
      .OperandMustBeNumber := by
  constructor
  · have harith := object_arith_mismatch (l := l) (r := r) hnum
    simp only [List.mem_cons, List.not_mem_nil, or_false] at hop
    rcases hop with h | h | h | h | h | h | h | h
    · simp only [Interp.evaluate, h, harith.1]
    · simp only [Interp.evaluate, h, harith.2.1]
    · simp only [Interp.evaluate, h, harith.2.2.1]
    · simp only [Interp.evaluate, h, object_plus_mismatch hnum (hstr h)]
    · simp only [Interp.evaluate, h, harith.2.2.2.1]
    · simp only [Interp.evaluate, h, harith.2.2.2.2.1]
    · simp only [Interp.evaluate, h, harith.2.2.2.2.2.1]
    · simp only [Interp.evaluate, h, harith.2.2.2.2.2.2]
  · intro hk
    cases hk

theorem c5_witness :
    (Interp.evaluate 2 Interp.new
        (.binary (.literal (.double 3)) (tok .Minus) (.literal .nil))).2 =
      .error (FoxError.runtime (some (tok .Minus))
        "Operand must be a number") ∧
    (FoxError.runtime (some (tok .Minus))
        "Operand must be a number").kind ≠ .OperandMustBeNumber :=
  c5_binary_mismatch_runtime_error 0 Interp.new (.double 3) .nil
    (tok .Minus) (by decide) rfl (by decide)

/-- C5 counterexample: `3 - nil` fails with a `Runtime`-kind error (message
from the operand method), not with `OperandMustBeNumber` as claimed. -/
theorem c5_counterexample_minus_nil :
    (Interp.evaluate 2 Interp.new
        (.binary (.literal (.double 3)) (tok .Minus) (.literal .nil))).2 =
      .error (FoxError.mk (.Runtime "Operand must be a number")
        (.Token (tok .Minus))) ∧
    ErrorKind.Runtime "Operand must be a number" ≠
      ErrorKind.OperandMustBeNumber := by
  refine ⟨rfl, ?_⟩
  intro h
  cases h

/-- C9: `==` on two class values or two instance values evaluates to
`false` even for the very same class or instance (the `PartialEq`
fall-through arm), so equality is not reflexive on these variants, and
`!=` correspondingly evaluates to `true`. -/
theorem c9_class_instance_equality_always_false (a b : Object) (t : Token)
    (fuel : Nat) (σ : Interp)
    (h : ((∃ m, a = .cls m) ∧ (∃ m', b = .cls m')) ∨
         ((∃ i, a = .inst i) ∧ (∃ i', b = .inst i'))) :
    objectEq a b = false ∧
    (t.token_type = .EqualEqual →
      (Interp.evaluate (fuel + 2) σ
          (.binary (.literal a) t (.literal b))).2 = .ok (.bool false)) ∧
    (t.token_type = .BangEqual →
      (Interp.evaluate (fuel + 2) σ
          (.binary (.literal a) t (.literal b))).2 = .ok (.bool true)) := by
  have hfalse : objectEq a b = false := by
    rcases h with ⟨⟨m, rfl⟩, ⟨m', rfl⟩⟩ | ⟨⟨i, rfl⟩, ⟨i', rfl⟩⟩ <;> rfl
  refine ⟨hfalse, ?_, ?_⟩ <;> intro ht <;>
    simp only [Interp.evaluate, ht, hfalse] <;> rfl

theorem c9_witness :
    objectEq (.cls (MetaClass.mk "A" none []))
      (.cls (MetaClass.mk "A" none [])) = false ∧
    ((tok .EqualEqual).token_type = .EqualEqual →
      (Interp.evaluate 2 Interp.new
          (.binary (.literal (.cls (MetaClass.mk "A" none [])))
            (tok .EqualEqual)
            (.literal (.cls (MetaClass.mk "A" none []))))).2 =
        .ok (.bool false)) ∧
    ((tok .EqualEqual).token_type = .BangEqual →
      (Interp.evaluate 2 Interp.new
          (.binary (.literal (.cls (MetaClass.mk "A" none [])))
            (tok .EqualEqual)
            (.literal (.cls (MetaClass.mk "A" none []))))).2 =
        .ok (.bool true)) :=
  c9_class_instance_equality_always_false _ _ (tok .EqualEqual) 0 Interp.new
    (Or.inl ⟨⟨_, rfl⟩, ⟨_, rfl⟩⟩)

/-- C3: when a callable's initializer flag is set, `func_execute` returns
the `this` bound at depth 0 of the callable's closure — both when the body
finishes normally and when it raises a `Return` signal (the returned value
is discarded) — and a successful call of a class value yields exactly the
freshly allocated instance. -/
theorem c3_initializer_returns_this_and_class_call_returns_instance :
    (∀ (fuel : Nat) (σ σ1 : Interp) (func : Func) (args : List Object)
       (res : Except FoxError Unit) (o : Object),
      func.isInitializer = true →
      Interp.execute_block fuel σ func.decl.body
          (Interp.bind_params (Env.with_enclosing (some func.closure))
            func.decl.params args) = (σ1, res) →
      (res = .ok () ∨
        ∃ info v, res = .error (FoxError.mk (.Return v) info)) →
      envGetAt σ1.envs func.closure 0 KEYWORD_THIS = .ok o →
      Interp.func_execute (fuel + 1) σ func args = (σ1, .ok o)) ∧
    (∀ (fuel : Nat) (σ σ1 σ2 : Interp) (callee : Expression) (paren : Token)
       (argExprs : List Expression) (args : List Object) (meta : MetaClass),
      Interp.evaluate fuel σ callee = (σ1, .ok (.cls meta)) →
      Interp.evalArgs fuel σ1 argExprs = (σ2, .ok args) →
      Interp.func_arity_check paren meta.arity args = .ok () →
      ∀ v, (Interp.evaluate (fuel + 1) σ
          (.call callee paren argExprs)).2 = .ok v →
        v = .inst σ2.instances.length) := by
  constructor
  · intro fuel σ σ1 func args res o hinit hexec hres hthis
    rcases hres with rfl | ⟨info, v, rfl⟩
    · simp [Interp.func_execute, hexec, hinit, hthis]
    · simp [Interp.func_execute, hexec, hinit, hthis]
      rfl
  · intro fuel σ σ1 σ2 callee paren argExprs args meta h1 h2 h3 v hv
    simp only [Interp.evaluate, h1, h2, h3] at hv
    split at hv
    · split at hv
      · exact Except.noConfusion hv
      · exact (Except.ok.inj hv).symm
    · exact (Except.ok.inj hv).symm

theorem c3_witness :
    Interp.func_execute 2 initState (Func.mk initDecl 0 true) [] =
      ({ initState with
          envs := initState.envs ++ [Env.with_enclosing (some 0)] },
        .ok (.inst 0)) ∧
    (Interp.evaluate 2 Interp.new
        (.call (.literal (.cls (MetaClass.mk "B" none [])))
          (tok .RightParenthesis) [])).2 = .ok (.inst 0) ∧
    Object.inst 0 = .inst Interp.new.instances.length :=
  ⟨c3_initializer_returns_this_and_class_call_returns_instance.1 1 initState
      { initState with
          envs := initState.envs ++ [Env.with_enclosing (some 0)] }
      (Func.mk initDecl 0 true) [] (.ok ()) (.inst 0) rfl rfl (Or.inl rfl)
      rfl,
    rfl,
    c3_initializer_returns_this_and_class_call_returns_instance.2 1
      Interp.new Interp.new Interp.new
      (.literal (.cls (MetaClass.mk "B" none []))) (tok .RightParenthesis)
      [] [] (MetaClass.mk "B" none []) rfl rfl rfl (.inst 0) rfl⟩

end Fox
